import Mathlib

/-!
Shallow embedding of `generate_donlon_dataset_copies.py` (aixm/Donlon_2025,
"DONLON dataset multiplication").

XML elements (lxml `etree` nodes) are modelled as a mutual inductive tree
`Elem` / `ElemList`: a tag string (in lxml's expanded `{namespace}local`
form, written here with `\x7b`/`\x7d` escapes), an attribute association
list, an optional text node, and a list of children.  Python dictionaries
keyed by UUID are modelled as insertion-ordered association lists; Python
sets of UUIDs as lists with membership-checking insertion.  Python floats
are modelled as exact rationals (`ℚ`); the textual rendering of a number
(`f"{lat} {lon}"`) is abstracted by `formatRat`, and `float(...)` parsing
by `parseFloat?` / `intOfStr?` (sign, digits, decimal point, exponent; the
exotic corners of Python numeric literals - underscores, `inf`, `nan`,
embedded whitespace - are not modelled, and no claim exercises them).
Functions that can raise in Python (`KeyError` on `uuid_map[EADD_UUID]`,
`ValueError` from `int(...)`) return `Option`, with `none` as the raised
exception.
-/

namespace Donlon

/-! ### String utilities (kernel-reducible replacements for `str` methods) -/

/-- Characters of a word-split (Python `str.split()` with no separator):
whitespace-separated maximal words, with `cur` the current word reversed. -/
def wordsGo (cur : List Char) : List Char → List (List Char)
  | [] => if cur.isEmpty then [] else [cur.reverse]
  | c :: r =>
    if c.isWhitespace then
      if cur.isEmpty then wordsGo [] r else cur.reverse :: wordsGo [] r
    else wordsGo (c :: cur) r

/-- Python `s.strip().split()`: whitespace-separated tokens. -/
def splitWs (s : String) : List String :=
  (wordsGo [] s.toList).map List.asString

/-- Python `s.strip()`. -/
def stripStr (s : String) : String :=
  (((s.toList.dropWhile Char.isWhitespace).reverse.dropWhile Char.isWhitespace).reverse).asString

/-- Python `s.startswith(p)`. -/
def startsWithStr (s p : String) : Bool :=
  decide (s.toList.take p.toList.length = p.toList)

/-- One step of Python `s.replace(pat, '')`: erase every non-overlapping
occurrence of `pat` (non-empty) from the character list, left to right.
The fuel argument (the list's length suffices) keeps the recursion
structural, so the kernel can evaluate it. -/
def eraseSubGo (pat : List Char) : Nat → List Char → List Char
  | _, [] => []
  | 0, cs => cs
  | fuel + 1, c :: rest =>
    if pat ≠ [] ∧ (c :: rest).take pat.length = pat then
      eraseSubGo pat fuel ((c :: rest).drop pat.length)
    else
      c :: eraseSubGo pat fuel rest

/-- Python `s.replace(pat, '')`. -/
def eraseSub (pat s : String) : String :=
  (eraseSubGo pat.toList s.toList.length s.toList).asString

/-- Python `sub in s` (substring containment). -/
def containsSubGo (pat : List Char) : List Char → Bool
  | [] => decide (pat = [])
  | c :: rest =>
    if (c :: rest).take pat.length = pat then true else containsSubGo pat rest

def containsSub (s sub : String) : Bool :=
  containsSubGo sub.toList s.toList

/-- Joining with a separator (Python `sep.join(...)`). -/
def joinWith (sep : String) : List String → String
  | [] => ""
  | [x] => x
  | x :: y :: r => x ++ sep ++ joinWith sep (y :: r)

/-- Value of a digit list (most significant first). -/
def digitsVal (cs : List Char) : Nat :=
  cs.foldl (fun acc c => acc * 10 + (c.toNat - 48)) 0

/-- Python `int(s)` for an optional sign followed by digits (`ValueError`
is `none`). -/
def intOfStr? (s : String) : Option Int :=
  match s.toList with
  | '-' :: r => if r ≠ [] ∧ r.all Char.isDigit then some (-(digitsVal r : Int)) else none
  | r => if r ≠ [] ∧ r.all Char.isDigit then some ((digitsVal r : Int)) else none

/-- Exponent part of a float literal: empty, or `e`/`E`, optional sign,
digits, end of string. -/
def parseExp : List Char → Option Int
  | [] => some 0
  | c :: r =>
    if c = 'e' ∨ c = 'E' then
      let (es, r2) : Int × List Char :=
        match r with
        | '-' :: rr => (-1, rr)
        | '+' :: rr => (1, rr)
        | rr => (1, rr)
      let ds := r2.takeWhile Char.isDigit
      let rest := r2.dropWhile Char.isDigit
      if ds.isEmpty ∨ rest ≠ [] then none else some (es * (digitsVal ds : Int))
    else none

/-- Python `float(s)` on decimal literals, as an exact rational. -/
def parseFloat? (s : String) : Option ℚ :=
  let cs := (stripStr s).toList
  let (neg, cs1) : Bool × List Char :=
    match cs with
    | '-' :: r => (true, r)
    | '+' :: r => (false, r)
    | r => (false, r)
  let ip := cs1.takeWhile Char.isDigit
  let r1 := cs1.dropWhile Char.isDigit
  let (fp, r2) : List Char × List Char :=
    match r1 with
    | '.' :: r => (r.takeWhile Char.isDigit, r.dropWhile Char.isDigit)
    | _ => ([], r1)
  if ip.isEmpty ∧ fp.isEmpty then none
  else
    match parseExp r2 with
    | none => none
    | some ex =>
      let mant : ℚ := (digitsVal ip : ℚ) + (digitsVal fp : ℚ) / ((10 : ℚ) ^ fp.length)
      let mag : ℚ :=
        if 0 ≤ ex then mant * (10 : ℚ) ^ ex.toNat else mant / (10 : ℚ) ^ (-ex).toNat
      some (if neg then -mag else mag)

/-- Rendering of a rational as text (abstracts Python float `repr`). -/
def formatRat (q : ℚ) : String :=
  if q.den = 1 then toString q.num else toString q.num ++ "/" ++ toString q.den

/-! ### Constants from the script -/

def GML_ID : String := "\x7bhttp://www.opengis.net/gml/3.2\x7did"

def XLINK_HREF : String := "\x7bhttp://www.w3.org/1999/xlink\x7dhref"

def XSI_NIL : String := "\x7bhttp://www.w3.org/2001/XMLSchema-instance\x7dnil"

def EADD_UUID : String := "1b54b2d6-a5ff-4e57-94c2-f4047a381c64"

def gmlTag (n : String) : String := "\x7bhttp://www.opengis.net/gml/3.2\x7d" ++ n

def aixmTag (n : String) : String := "\x7bhttp://www.aixm.aero/schema/5.1.1\x7d" ++ n

def gmlIdentifierTag : String := gmlTag "identifier"

def gmlPosTag : String := gmlTag "pos"

def gmlPosListTag : String := gmlTag "posList"

def aixmDesignatorTag : String := aixmTag "designator"

def aixmNameTag : String := aixmTag "name"

def aixmSequenceTag : String := aixmTag "sequenceNumber"

def aixmCorrectionTag : String := aixmTag "correctionNumber"

def vsPartTag : String := aixmTag "VerticalStructurePart"

def FEATURE_TYPES : List String :=
  ["AirportHeliport", "Runway", "RunwayDirection", "RunwayElement",
   "RunwayCentrelinePoint", "TouchDownLiftOff", "Taxiway", "TaxiwayElement",
   "Apron", "ApronElement", "AircraftStand", "Navaid", "VOR", "DME", "NDB",
   "TACAN", "Localizer", "Glidepath", "VerticalStructure", "Airspace"]

def NAVAID_EQUIPMENT_TYPES : List String :=
  ["VOR", "DME", "NDB", "TACAN", "Localizer", "Glidepath"]

def AIRSPACE_DESIGNATORS : List String :=
  ["EAR1", "EAV10", "EAP2", "EAV8", "EAD4", "EAV11", "EAD5", "EAR4"]

def VS_PROPERTIES_TO_REMOVE : List String :=
  ["hostedPassengerService", "supportedGroundLight", "hostedSpecialNavStation",
   "hostedUnit", "hostedOrganisation", "supportedService"]

/-- `('Navaid', *NAVAID_EQUIPMENT_TYPES)` as used in `clone_feature_set`. -/
def navaid_types : List String := "Navaid" :: NAVAID_EQUIPMENT_TYPES

/-! ### Geometry: `calculate_grid_offset`, `offset_coordinate`, `offset_pos_list` -/

/-- `calculate_grid_offset(index, grid_cols, distance_nm)`.  Python floats
are modelled exactly as rationals; `//` and `%` are `Nat` operations
(grid_cols is a positive CLI parameter; Python would raise
`ZeroDivisionError` at 0, which the totalised `Nat` division does not
model, so theorems assume `0 < grid_cols`). -/
def calculate_grid_offset (index grid_cols : Nat) (distance_nm : ℚ) : ℚ × ℚ :=
  let row := index / grid_cols
  let col := index % grid_cols
  let lat_per_nm : ℚ := 1.0 / 60.0
  let lon_per_nm : ℚ := 1.0 / (60.0 * 0.6157)
  ((row : ℚ) * distance_nm * lat_per_nm, (col : ℚ) * distance_nm * lon_per_nm)

/-- `offset_coordinate(coord_str, lat_offset, lon_offset)`. -/
def offset_coordinate (coord_str : String) (lat_offset lon_offset : ℚ) : String :=
  match splitWs coord_str with
  | p0 :: p1 :: _ =>
    match parseFloat? p0, parseFloat? p1 with
    | some lat, some lon => formatRat (lat + lat_offset) ++ " " ++ formatRat (lon + lon_offset)
    | _, _ => coord_str
  | _ => coord_str

/-- The `coord_pairs` loop of `offset_pos_list`: consecutive token pairs,
shifted when both parse, kept verbatim otherwise; a trailing unpaired
token is dropped (`if i + 1 < len(values)`). -/
def buildPairs (lat_offset lon_offset : ℚ) : List String → List String
  | a :: b :: rest =>
    (match parseFloat? a, parseFloat? b with
     | some lat, some lon =>
       formatRat (lat + lat_offset) ++ " " ++ formatRat (lon + lon_offset)
     | _, _ => a ++ " " ++ b) :: buildPairs lat_offset lon_offset rest
  | _ => []

/-- The line-wrapping loop of `offset_pos_list`. -/
def wrapLines (max_line_length : Nat) (pairs : List String) : List String :=
  let r := pairs.foldl
    (fun (acc : List String × String) pair =>
      let test := if acc.2 = "" then pair else acc.2 ++ " " ++ pair
      if max_line_length < test.length ∧ acc.2 ≠ "" then (acc.1 ++ [acc.2], pair)
      else (acc.1, test))
    ([], "")
  if r.2 ≠ "" then r.1 ++ [r.2] else r.1

/-- `offset_pos_list(pos_list_str, lat_offset, lon_offset, max_line_length=200)`. -/
def offset_pos_list (pos_list_str : String) (lat_offset lon_offset : ℚ)
    (max_line_length : Nat := 200) : String :=
  joinWith "\n" (wrapLines max_line_length (buildPairs lat_offset lon_offset (splitWs pos_list_str)))

/-! ### The element tree (lxml `etree` nodes) -/

mutual

/-- An XML element: expanded tag, attributes, optional text, children. -/
inductive Elem : Type where
  | mk (tag : String) (attrs : List (String × String)) (text : Option String)
      (children : ElemList) : Elem

/-- The children of an element, as a dedicated list type so that mutual
recursion and induction over the tree are structural. -/
inductive ElemList : Type where
  | nil : ElemList
  | cons (head : Elem) (tail : ElemList) : ElemList

end

def Elem.tag : Elem → String
  | .mk t _ _ _ => t

def Elem.attrs : Elem → List (String × String)
  | .mk _ a _ _ => a

def Elem.text : Elem → Option String
  | .mk _ _ x _ => x

def Elem.children : Elem → ElemList
  | .mk _ _ _ cs => cs

/-- First value bound to a key in an association list (`elem.get(k)`,
`dict[k]` lookups). -/
def lookupA {α : Type} : List (String × α) → String → Option α
  | [], _ => none
  | (k, v) :: rest, k' => if k = k' then some v else lookupA rest k'

/-- `elem.set(k, v)`: replace the first binding of `k`, or append one. -/
def setA (a : List (String × String)) (k v : String) : List (String × String) :=
  match a with
  | [] => [(k, v)]
  | (k', v') :: rest => if k' = k then (k, v) :: rest else (k', v') :: setA rest k v

def getAttr (e : Elem) (k : String) : Option String := lookupA e.attrs k

/-- One node's data, used by the preorder flattening `Elem.nodes`. -/
structure NodeD : Type where
  tag : String
  attrs : List (String × String)
  text : Option String
deriving DecidableEq

mutual

/-- All nodes of the tree in document (preorder) order: `elem.iter()`. -/
def Elem.nodes : Elem → List NodeD
  | .mk t a x cs => ⟨t, a, x⟩ :: cs.nodes

def ElemList.nodes : ElemList → List NodeD
  | .nil => []
  | .cons e l => e.nodes ++ l.nodes

end

/-- The UUID contributed by one node to `get_xlink_hrefs`: its
`xlink:href` attribute when present in `urn:uuid:` form, stripped. -/
def hrefOfNode (n : NodeD) : Option String :=
  match lookupA n.attrs XLINK_HREF with
  | some h => if startsWithStr h "urn:uuid:" then some (eraseSub "urn:uuid:" h) else none
  | none => none

/-- `get_xlink_hrefs(feature_elem)`: every `urn:uuid:` reference in the
tree (Python builds a set; membership is what all call sites use). -/
def get_xlink_hrefs (e : Elem) : List String :=
  e.nodes.filterMap hrefOfNode

/-- The texts of all nodes with a given tag, in document order. -/
def textsBy (t0 : String) (e : Elem) : List (Option String) :=
  e.nodes.filterMap (fun n => if n.tag = t0 then some n.text else none)

def posTexts (e : Elem) : List (Option String) := textsBy gmlPosTag e

def posListTexts (e : Elem) : List (Option String) := textsBy gmlPosListTag e

/-! ### Generic tree transforms used by the script's mutation loops -/

mutual

/-- Apply a node-local edit to every node of the tree (an `elem.iter()`
loop whose body touches only the current node's tag/attrs/text). -/
def mapNodes (φ : NodeD → NodeD) : Elem → Elem
  | .mk t a x cs =>
    let n := φ ⟨t, a, x⟩
    .mk n.tag n.attrs n.text (mapNodesL φ cs)

def mapNodesL (φ : NodeD → NodeD) : ElemList → ElemList
  | .nil => .nil
  | .cons e l => .cons (mapNodes φ e) (mapNodesL φ l)

end

mutual

/-- First node (document order, the element itself included) whose tag
satisfies `p`: `for child in elem.iter(): if p(tag): ...; break`. -/
def findFirstIncl (p : String → Bool) : Elem → Option Elem
  | .mk t a x cs => if p t then some (.mk t a x cs) else findFirstL p cs

def findFirstL (p : String → Bool) : ElemList → Option Elem
  | .nil => none
  | .cons e l =>
    match findFirstIncl p e with
    | some r => some r
    | none => findFirstL p l

end

/-- Same search, excluding the root (`child is not feature_elem`). -/
def findFirstDesc (p : String → Bool) (e : Elem) : Option Elem :=
  findFirstL p e.children

mutual

/-- Replace the first node (document order, root included) whose tag
satisfies `p` by its image under `f`; identity when there is none. -/
def mapFirstIncl (p : String → Bool) (f : Elem → Elem) : Elem → Elem
  | .mk t a x cs =>
    if p t then f (.mk t a x cs) else .mk t a x (mapFirstL p f cs)

def mapFirstL (p : String → Bool) (f : Elem → Elem) : ElemList → ElemList
  | .nil => .nil
  | .cons e l =>
    match findFirstIncl p e with
    | some _ => .cons (mapFirstIncl p f e) l
    | none => .cons e (mapFirstL p f l)

end

/-- Replace the first matching node excluding the root. -/
def mapFirstDesc (p : String → Bool) (f : Elem → Elem) (e : Elem) : Elem :=
  match e with
  | .mk t a x cs => .mk t a x (mapFirstL p f cs)

def findChildL : ElemList → String → Option Elem
  | .nil, _ => none
  | .cons c rest, t0 => if c.tag = t0 then some c else findChildL rest t0

/-- First direct child with the given tag: `elem.find('ns:tag', NSMAP)`. -/
def findChild (e : Elem) (t0 : String) : Option Elem :=
  match e with
  | .mk _ _ _ cs => findChildL cs t0

/-- Apply `f` to the first direct child with tag `t0` (no-op when absent):
the `d = ts.find(...); if d is not None: mutate d` pattern. -/
def editFirstChildL (t0 : String) (f : Elem → Elem) : ElemList → ElemList
  | .nil => .nil
  | .cons c rest =>
    if c.tag = t0 then .cons (f c) rest else .cons c (editFirstChildL t0 f rest)

def editFirstChild (t0 : String) (f : Elem → Elem) (e : Elem) : Elem :=
  match e with
  | .mk t a x cs => .mk t a x (editFirstChildL t0 f cs)

/-- Change only the text of an element. -/
def textEdit (g : Option String → Option String) (e : Elem) : Elem :=
  match e with
  | .mk t a x cs => .mk t a (g x) cs

def editFirstChildText (t0 : String) (g : Option String → Option String) (e : Elem) : Elem :=
  editFirstChild t0 (textEdit g) e

/-- Set an attribute on the root element only. -/
def setRootAttr (e : Elem) (k v : String) : Elem :=
  match e with
  | .mk t a x cs => .mk t (setA a k v) x cs

/-- `'TimeSlice' in tag` (lxml tags of comments are not strings; the model
carries string tags only, matching the `isinstance(tag, str)` guard). -/
def isTsTag (t : String) : Bool := containsSub t "TimeSlice"

def isAhpTsTag (t : String) : Bool := containsSub t "AirportHeliportTimeSlice"

def isAirspaceTsTag (t : String) : Bool := containsSub t "AirspaceTimeSlice"

/-! ### Reference-closure collector (`collect_eadd_features`) -/

/-- `features_by_type`: for each AIXM type name, the insertion-ordered
mapping from feature UUID to element (a Python `dict`). -/
abbrev Fbt : Type := String → List (String × Elem)

/-- A collected entry: `(uuid, (type, element))`, flattened. -/
abbrev Triple : Type := String × String × Elem

def keysOf (c : List Triple) : List String := c.map (fun r => r.1)

/-- Python `set.add`: append unless already present (iteration order of a
CPython `set` is unspecified; every use below is order-insensitive). -/
def sadd (s : List String) (x : String) : List String :=
  if x ∈ s then s else s ++ [x]

/-- The inner helper `find_referencing(feat_type, target_uuids)`: features
of a type, not yet collected, whose outgoing hrefs meet the target set. -/
def find_referencing (fbt : Fbt) (collectedKeys : List String) (feat_type : String)
    (targets : List String) : List (String × Elem) :=
  (fbt feat_type).filter
    (fun p => ¬ p.1 ∈ collectedKeys ∧ (get_xlink_hrefs p.2).any (fun r => targets.contains r))

def addAll (c : List Triple) (t : String) (found : List (String × Elem)) : List Triple :=
  c ++ found.map (fun p => (p.1, t, p.2))

/-- Steps 2-10 of `collect_eadd_features`: the fixed link-based stages from
the anchor airport down to aircraft stands. -/
def baseCollected (fbt : Fbt) (ahp : Elem) : List Triple :=
  let c1 : List Triple := [(EADD_UUID, "AirportHeliport", ahp)]
  let airport_uuids := [EADD_UUID]
  let runways := find_referencing fbt (keysOf c1) "Runway" airport_uuids
  let c2 := addAll c1 "Runway" runways
  let runway_uuids := runways.map (fun p => p.1)
  let rwy_dirs := find_referencing fbt (keysOf c2) "RunwayDirection" runway_uuids
  let c3 := addAll c2 "RunwayDirection" rwy_dirs
  let rwy_dir_uuids := rwy_dirs.map (fun p => p.1)
  let rwy_elems := find_referencing fbt (keysOf c3) "RunwayElement" runway_uuids
  let c4 := addAll c3 "RunwayElement" rwy_elems
  let rcps := find_referencing fbt (keysOf c4) "RunwayCentrelinePoint" rwy_dir_uuids
  let c5 := addAll c4 "RunwayCentrelinePoint" rcps
  let tlofs := find_referencing fbt (keysOf c5) "TouchDownLiftOff" (airport_uuids ++ runway_uuids)
  let c6 := addAll c5 "TouchDownLiftOff" tlofs
  let taxiways := find_referencing fbt (keysOf c6) "Taxiway" airport_uuids
  let c7 := addAll c6 "Taxiway" taxiways
  let taxiway_uuids := taxiways.map (fun p => p.1)
  let twy_elems := find_referencing fbt (keysOf c7) "TaxiwayElement" taxiway_uuids
  let c8 := addAll c7 "TaxiwayElement" twy_elems
  let aprons := find_referencing fbt (keysOf c8) "Apron" airport_uuids
  let c9 := addAll c8 "Apron" aprons
  let apron_uuids := aprons.map (fun p => p.1)
  let apron_elems := find_referencing fbt (keysOf c9) "ApronElement" apron_uuids
  let c10 := addAll c9 "ApronElement" apron_elems
  let apron_elem_uuids := apron_elems.map (fun p => p.1)
  let stands := find_referencing fbt (keysOf c10) "AircraftStand" (apron_elem_uuids ++ airport_uuids)
  addAll c10 "AircraftStand" stands

/-- Step 11: ALL navaids are collected; the ones whose hrefs meet the
snapshot `eadd_uuids_so_far` are marked EADD-related. -/
def navaidStage (fbt : Fbt) (base : List Triple) : List Triple × List String :=
  let baseKeys := keysOf base
  (fbt "Navaid").foldl
    (fun acc p =>
      if p.1 ∈ keysOf acc.1 then acc
      else
        let refs := get_xlink_hrefs p.2
        let marks := if refs.any (fun r => baseKeys.contains r) then sadd acc.2 p.1 else acc.2
        (acc.1 ++ [(p.1, "Navaid", p.2)], marks))
    (base, [])

/-- Step 12: ALL navaid equipment is collected; equipment is marked when
its hrefs meet the fixed `eadd_plus_navaid` target set (the base snapshot
union the navaid marks - marks added during this loop do not grow it). -/
def equipStage (fbt : Fbt) (collected : List Triple) (targets marks : List String) :
    List Triple × List String :=
  NAVAID_EQUIPMENT_TYPES.foldl
    (fun acc eq_type =>
      (fbt eq_type).foldl
        (fun acc2 p =>
          if p.1 ∈ keysOf acc2.1 then acc2
          else
            let refs := get_xlink_hrefs p.2
            let m2 := if refs.any (fun r => targets.contains r) then sadd acc2.2 p.1 else acc2.2
            (acc2.1 ++ [(p.1, eq_type, p.2)], m2))
        acc)
    (collected, marks)

/-- The corrective top-down pass: for every marked UUID that is a navaid,
mark every equipment record its hrefs point to.  The Python loop iterates
over `list(eadd_navaid_uuids)`, a snapshot of the set at entry. -/
def topDownStage (fbt : Fbt) (marks : List String) : List String :=
  marks.foldl
    (fun acc n =>
      match lookupA (fbt "Navaid") n with
      | none => acc
      | some e =>
        (get_xlink_hrefs e).foldl
          (fun acc2 r =>
            if NAVAID_EQUIPMENT_TYPES.any (fun eq_type => (lookupA (fbt eq_type) r).isSome)
            then sadd acc2 r else acc2)
          acc)
    marks

/-- Step 13: ALL vertical structures. -/
def vsStage (fbt : Fbt) (collected : List Triple) : List Triple :=
  (fbt "VerticalStructure").foldl
    (fun acc p =>
      if p.1 ∈ keysOf acc then acc else acc ++ [(p.1, "VerticalStructure", p.2)])
    collected

/-- Step 14: airspaces whose first `AirspaceTimeSlice` carries a designator
in the allow-list. -/
def airspaceStage (fbt : Fbt) (collected : List Triple) : List Triple :=
  (fbt "Airspace").foldl
    (fun acc p =>
      if p.1 ∈ keysOf acc then acc
      else
        match findFirstIncl isAirspaceTsTag p.2 with
        | none => acc
        | some ts =>
          match findChild ts aixmDesignatorTag with
          | none => acc
          | some d =>
            match d.text with
            | some s => if s ∈ AIRSPACE_DESIGNATORS then acc ++ [(p.1, "Airspace", p.2)] else acc
            | none => acc)
    collected

/-- The state after the bottom-up navaid and equipment passes. -/
def bottomUpState (fbt : Fbt) (ahp : Elem) : List Triple × List String :=
  let base := baseCollected fbt ahp
  let ns := navaidStage fbt base
  equipStage fbt ns.1 (keysOf base ++ ns.2) ns.2

/-- The heterogeneous result of `collect_eadd_features`: the early
`return collected` on the anchor-miss path hands back the bare dict
itself, while the normal path returns the 2-tuple
`(collected, eadd_navaid_uuids)`. -/
inductive CollectRet
  | bare (collected : List Triple)
  | pair (collected : List Triple) (navaids : List String)

/-- `collect_eadd_features(features_by_type)`: on an anchor miss the bare
dict - still empty at that point - is returned as is; otherwise the
belonging set (ordered) and the EADD-related (locally relevant)
navaid/equipment UUID set. -/
def collect_eadd_features (fbt : Fbt) : CollectRet :=
  match lookupA (fbt "AirportHeliport") EADD_UUID with
  | none => .bare []
  | some ahp =>
    let bu := bottomUpState fbt ahp
    .pair (airspaceStage fbt (vsStage fbt bu.1)) (topDownStage fbt bu.2)

/-- The caller's tuple unpacking
`collected, eadd_navaid_uuids = collect_eadd_features(features_by_type)`
in `main`. A 2-tuple binds its two components; a returned dict can never
produce the `(dict, list)` pair this assignment expects - the one bare
return in the source carries the empty dict, and unpacking an empty dict
into two names raises `ValueError: not enough values to unpack
(expected 2, got 0)` - so the dict case is the exception case, modelled
by `none`. -/
def unpackCollect : CollectRet → Option (List Triple × List String)
  | .pair c u => some (c, u)
  | .bare _ => none

/-! ### Clone engine: `update_feature_ids` -/

mutual

/-- The child-renumbering loop of `update_feature_ids`: every descendant
that already carries a `gml:id` gets `base_<n>`, `n` counted in document
order from the given start. -/
def renumE (base : String) (e : Elem) (n : Nat) : Elem × Nat :=
  match e with
  | .mk t a x cs =>
    match lookupA a GML_ID with
    | some _ =>
      let r := renumL base cs (n + 1)
      (.mk t (setA a GML_ID (base ++ "_" ++ toString n)) x r.1, r.2)
    | none =>
      let r := renumL base cs n
      (.mk t a x r.1, r.2)

def renumL (base : String) (l : ElemList) (n : Nat) : ElemList × Nat :=
  match l with
  | .nil => (.nil, n)
  | .cons e rest =>
    let r1 := renumE base e n
    let r2 := renumL base rest r1.2
    (.cons r1.1 r2.1, r2.2)

end

/-- `f'id_{new_uuid}_{seq}_{corr}_B'`. -/
def idBase (u : String) (seq corr : Int) : String :=
  "id_" ++ u ++ "_" ++ toString seq ++ "_" ++ toString corr ++ "_B"

/-- Set the time-slice's own `gml:id` and renumber its descendants
(children numbered from 1; the time-slice itself is skipped). -/
def tsRelabel (idb : String) (ts : Elem) : Elem :=
  match ts with
  | .mk t a x cs => .mk t (setA a GML_ID idb) x (renumL idb cs 1).1

/-- `int(x_elem.text) if x_elem is not None and x_elem.text else dflt`:
the sequence-number / correction-number read with its defaults.  A present
non-empty unparseable text raises `ValueError` (`none`). -/
def readNum (ts : Elem) (t0 : String) (dflt : Int) : Option Int :=
  match findChild ts t0 with
  | none => some dflt
  | some el =>
    match el.text with
    | none => some dflt
    | some s => if s = "" then some dflt else intOfStr? s

/-- The first two edits of `update_feature_ids`: the feature-level
`gml:id` and the `gml:identifier` text. -/
def prepIds (e : Elem) (new_uuid : String) : Elem :=
  editFirstChildText gmlIdentifierTag (fun _ => some new_uuid)
    (setRootAttr e GML_ID ("uuid." ++ new_uuid))

/-- `update_feature_ids(feature_elem, new_uuid)`. -/
def update_feature_ids (e : Elem) (new_uuid : String) : Option Elem :=
  match findFirstDesc isTsTag (prepIds e new_uuid) with
  | none => some (prepIds e new_uuid)
  | some ts =>
    match readNum ts aixmSequenceTag 1, readNum ts aixmCorrectionTag 0 with
    | some seq, some corr =>
      some (mapFirstDesc isTsTag (tsRelabel (idBase new_uuid seq corr)) (prepIds e new_uuid))
    | _, _ => none

/-! ### Clone engine: `update_xlink_refs` and `offset_all_coordinates` -/

/-- The node-local edit of `update_xlink_refs`: rewrite a `urn:uuid:` href
whose stripped UUID is a key of `uuid_map`. -/
def updHrefNode (uuid_map : List (String × String)) (n : NodeD) : NodeD :=
  match lookupA n.attrs XLINK_HREF with
  | some h =>
    if startsWithStr h "urn:uuid:" then
      match lookupA uuid_map (eraseSub "urn:uuid:" h) with
      | some nu => ⟨n.tag, setA n.attrs XLINK_HREF ("urn:uuid:" ++ nu), n.text⟩
      | none => n
    else n
  | none => n

/-- `update_xlink_refs(feature_elem, uuid_map)`. -/
def update_xlink_refs (e : Elem) (uuid_map : List (String × String)) : Elem :=
  mapNodes (updHrefNode uuid_map) e

/-- `if pos.text and pos.text.strip(): pos.text = f(pos.text)`. -/
def guardedText (f : String → String) (x : Option String) : Option String :=
  match x with
  | some s => if stripStr s = "" then some s else some (f s)
  | none => none

/-- The node-local text edit applied to every node with a fixed tag. -/
def textNodeEdit (t0 : String) (g : Option String → Option String) (n : NodeD) : NodeD :=
  if n.tag = t0 then ⟨n.tag, n.attrs, g n.text⟩ else n

/-- `offset_all_coordinates(feature_elem, lat_offset, lon_offset)`:
every `gml:pos`, then every `gml:posList`. -/
def offset_all_coordinates (e : Elem) (lat_offset lon_offset : ℚ) : Elem :=
  let e1 := mapNodes (textNodeEdit gmlPosTag
    (guardedText (fun s => offset_coordinate s lat_offset lon_offset))) e
  mapNodes (textNodeEdit gmlPosListTag
    (guardedText (fun s => offset_pos_list s lat_offset lon_offset 200))) e1

/-! ### Clone engine: the type-specific relabeling branches -/

/-- Two-digit zero-padded rendering of `{n:02d}`. -/
def pad2 (n : Nat) : String := if n < 10 then "0" ++ toString n else toString n

/-- `f"E{index + 1:02d}D"`. -/
def anchorDesignator (index : Nat) : String := "E" ++ pad2 (index + 1) ++ "D"

/-- `f"DONLON INTL. {index + 1:02d}"`. -/
def anchorName (index : Nat) : String := "DONLON INTL. " ++ pad2 (index + 1)

/-- `f"-{index + 1:02d}"`. -/
def copySuffix (index : Nat) : String := "-" ++ pad2 (index + 1)

/-- The AirportHeliport time-slice edit: designator and name replaced
outright when present. -/
def ahpTs (index : Nat) (ts : Elem) : Elem :=
  editFirstChildText aixmNameTag (fun _ => some (anchorName index))
    (editFirstChildText aixmDesignatorTag (fun _ => some (anchorDesignator index)) ts)

/-- `if d is not None and d.text: d.text = d.text + suffix`. -/
def appendIfTruthy (sfx : String) (x : Option String) : Option String :=
  match x with
  | some s => if s = "" then some s else some (s ++ sfx)
  | none => none

/-- The Navaid / NavaidEquipment / Airspace time-slice edit: append the
copy suffix to designator and name when present and non-empty. -/
def suffixTs (sfx : String) (ts : Elem) : Elem :=
  editFirstChildText aixmNameTag (appendIfTruthy sfx)
    (editFirstChildText aixmDesignatorTag (appendIfTruthy sfx) ts)

/-- The per-part edit of the VerticalStructure branch: append the suffix
to the part's designator unless empty, whitespace, or `xsi:nil`. -/
def vsPartEdit (sfx : String) (part : Elem) : Elem :=
  editFirstChild aixmDesignatorTag
    (fun pd =>
      match pd.text with
      | some s =>
        if stripStr s = "" then pd
        else
          match getAttr pd XSI_NIL with
          | some v => if v = "" then textEdit (fun _ => some (s ++ sfx)) pd else pd
          | none => textEdit (fun _ => some (s ++ sfx)) pd
      | none => pd)
    part

/-- Keep only the direct children whose tag is not one of the
`aixm:` properties to remove. -/
def vsPropTags : List String := VS_PROPERTIES_TO_REMOVE.map aixmTag

def removePropsL : ElemList → ElemList
  | .nil => .nil
  | .cons c rest =>
    if c.tag ∈ vsPropTags then removePropsL rest else .cons c (removePropsL rest)

def removeProps (ts : Elem) : Elem :=
  match ts with
  | .mk t a x cs => .mk t a x (removePropsL cs)

mutual

/-- `child.iter(tag)`: apply a transform at every node (root included)
whose tag matches exactly.  The script's edits are node-local (they change
only a matching node's direct-child texts, never tags or structure), so
the in-place `iter` loop is equivalent to this bottom-up traversal. -/
def mapTag (t0 : String) (f : Elem → Elem) : Elem → Elem
  | .mk t a x cs =>
    let e1 : Elem := .mk t a x (mapTagL t0 f cs)
    if t = t0 then f e1 else e1

def mapTagL (t0 : String) (f : Elem → Elem) : ElemList → ElemList
  | .nil => .nil
  | .cons e l => .cons (mapTag t0 f e) (mapTagL t0 f l)

end

/-- The VerticalStructure time-slice edit: suffix the name, suffix each
non-nil part designator, then remove the unwanted relationship
properties. -/
def vsTs (sfx : String) (ts : Elem) : Elem :=
  removeProps (mapTag vsPartTag (vsPartEdit sfx) (editFirstChildText aixmNameTag (appendIfTruthy sfx) ts))

/-! ### Clone engine: `clone_feature_set` -/

/-- The `uuid_map` built per clone instance: one generated identifier per
collected key, in insertion order.  `generate_new_uuid` (nondeterministic
`uuid.uuid4`) is injected as the stream `gen`. -/
def uuidMapOf (gen : Nat → String) : Nat → List Triple → List (String × String)
  | _, [] => []
  | n, r :: rest => (r.1, gen n) :: uuidMapOf gen (n + 1) rest

/-- The coordinate-offset step of the cloning loop: the reduced offset
for navaid/equipment records not in the EADD-related set, the full
offset for everything else. -/
def offsetStage (latO lonO latN lonN : ℚ) (navSet : List String)
    (old_uuid feat_type : String) (e2 : Elem) : Elem :=
  if navaid_types.contains feat_type ∧ ¬ old_uuid ∈ navSet then
    offset_all_coordinates e2 latN lonN
  else offset_all_coordinates e2 latO lonO

/-- The four type-specific relabeling branches of the cloning loop, in
source order: anchor, navaid/equipment, obstacle, airspace. -/
def branch1 (index : Nat) (feat_type : String) (e3 : Elem) : Elem :=
  if feat_type = "AirportHeliport" then mapFirstIncl isAhpTsTag (ahpTs index) e3 else e3

def branch2 (index : Nat) (feat_type : String) (e4 : Elem) : Elem :=
  if navaid_types.contains feat_type then
    mapFirstDesc isTsTag (suffixTs (copySuffix index)) e4
  else e4

def branch3 (index : Nat) (feat_type : String) (e5 : Elem) : Elem :=
  if feat_type = "VerticalStructure" then
    mapFirstDesc isTsTag (vsTs (copySuffix index)) e5
  else e5

def branch4 (index : Nat) (feat_type : String) (e6 : Elem) : Elem :=
  if feat_type = "Airspace" then mapFirstDesc isTsTag (suffixTs (copySuffix index)) e6 else e6

/-- The type-specific relabeling step of the cloning loop. -/
def branchStage (index : Nat) (feat_type : String) (e3 : Elem) : Elem :=
  branch4 index feat_type (branch3 index feat_type (branch2 index feat_type
    (branch1 index feat_type e3)))

/-- The stages following the re-identification, in the loop's order:
href rewriting, repositioning, relabeling. -/
def cloneStages (uuid_map : List (String × String)) (index : Nat)
    (latO lonO latN lonN : ℚ) (navSet : List String)
    (old_uuid feat_type : String) (e1 : Elem) : Elem :=
  branchStage index feat_type
    (offsetStage latO lonO latN lonN navSet old_uuid feat_type
      (update_xlink_refs e1 uuid_map))

/-- The per-record body of the cloning loop.  `none` models the uncaught
`ValueError` from `int(...)` inside `update_feature_ids` (and the
impossible missing-key lookup). -/
def cloneOne (uuid_map : List (String × String)) (index : Nat) (latO lonO latN lonN : ℚ)
    (navSet : List String) (old_uuid feat_type : String) (orig : Elem) : Option Elem :=
  match lookupA uuid_map old_uuid with
  | none => none
  | some new_uuid =>
    match update_feature_ids orig new_uuid with
    | none => none
    | some e1 => some (cloneStages uuid_map index latO lonO latN lonN navSet old_uuid feat_type e1)

/-- The cloning loop over the collected features, in insertion order. -/
def cloneRecords (uuid_map : List (String × String)) (index : Nat)
    (latO lonO latN lonN : ℚ) (navSet : List String) :
    List Triple → Option (List (String × Elem))
  | [] => some []
  | (u, t, e) :: rest =>
    match cloneOne uuid_map index latO lonO latN lonN navSet u t e with
    | none => none
    | some ce =>
      match cloneRecords uuid_map index latO lonO latN lonN navSet rest with
      | none => none
      | some cr => some ((t, ce) :: cr)

/-- `clone_feature_set(collected_features, index, grid_cols, distance_nm,
eadd_navaid_uuids)`: the cloned `(type, element)` list and the new anchor
UUID.  The final `uuid_map[EADD_UUID]` raises `KeyError` (`none`) when the
anchor is not a key of the collected set. -/
def clone_feature_set (collected : List Triple) (index grid_cols : Nat) (distance_nm : ℚ)
    (eadd_navaid_uuids : List String) (gen : Nat → String) :
    Option (List (String × Elem) × String) :=
  match cloneRecords (uuidMapOf gen 0 collected) index
      (calculate_grid_offset index grid_cols distance_nm).1
      (calculate_grid_offset index grid_cols distance_nm).2
      (calculate_grid_offset index grid_cols (distance_nm / 10)).1
      (calculate_grid_offset index grid_cols (distance_nm / 10)).2
      eadd_navaid_uuids collected with
  | none => none
  | some cloned =>
    match lookupA (uuidMapOf gen 0 collected) EADD_UUID with
    | none => none
    | some a => some (cloned, a)

/-! ### Observation functions and relations used by the verification -/

/-- The values of an association list (the generated identifiers of a
`uuid_map`). -/
def valsA (m : List (String × String)) : List String := m.map (fun p => p.2)

/-- The anchor designator visible in a cloned record: the text of the
`aixm:designator` child of the first `AirportHeliportTimeSlice`. -/
def anchorDesigOf (e : Elem) : Option String :=
  (findFirstIncl isAhpTsTag e).bind (fun ts => (findChild ts aixmDesignatorTag).bind Elem.text)

/-- The anchor name visible in a cloned record. -/
def anchorNameOf (e : Elem) : Option String :=
  (findFirstIncl isAhpTsTag e).bind (fun ts => (findChild ts aixmNameTag).bind Elem.text)

/-- Node data relation: tags agree, `xlink:href` attributes agree, and
texts agree except possibly on nodes whose tag is in the exemption list.
All of the clone step's relabeling edits relate nodes this way. -/
def nodeRelEx (ex : List String) (b a : NodeD) : Prop :=
  b.tag = a.tag ∧ lookupA b.attrs XLINK_HREF = lookupA a.attrs XLINK_HREF ∧
    (¬ a.tag ∈ ex → b.text = a.text)

/-- Lifted to node lists. -/
def NRel (ex : List String) (la lb : List NodeD) : Prop :=
  List.Forall₂ (nodeRelEx ex) la lb

/-- `la` is, up to `nodeRelEx ex`, a sublist of `lb` (the shape produced
by property removal combined with text edits). -/
def SubRel (ex : List String) (la lb : List NodeD) : Prop :=
  ∃ mid, NRel ex la mid ∧ mid.Sublist lb

/-- The offset pair a record is shifted by, as the spec states it: the
grid offset computed with `distanceUnit / 10` exactly when the record is
a navaid or navaid-equipment type whose original identifier is not
locally relevant, and the full-distance grid offset otherwise. -/
def cloneOffsets (index grid_cols : Nat) (distance_nm : ℚ) (nav : List String)
    (rec : Triple) : ℚ × ℚ :=
  if navaid_types.contains rec.2.1 ∧ ¬ rec.1 ∈ nav then
    calculate_grid_offset index grid_cols (distance_nm / 10)
  else calculate_grid_offset index grid_cols distance_nm

/-- How a cloned record's coordinates relate to its original's: every
`gml:pos` and `gml:posList` text in the clone is an original text
shifted by the record's selected offset (a sublist, since the obstacle
branch may remove subtrees), and away from the obstacle type the
correspondence is exact. -/
def offsetRel (index grid_cols : Nat) (distance_nm : ℚ) (nav : List String)
    (rec : Triple) (tc : String × Elem) : Prop :=
  tc.1 = rec.2.1
  ∧ (posTexts tc.2).Sublist ((posTexts rec.2.2).map (guardedText (fun s =>
      offset_coordinate s (cloneOffsets index grid_cols distance_nm nav rec).1
        (cloneOffsets index grid_cols distance_nm nav rec).2)))
  ∧ (posListTexts tc.2).Sublist ((posListTexts rec.2.2).map (guardedText (fun s =>
      offset_pos_list s (cloneOffsets index grid_cols distance_nm nav rec).1
        (cloneOffsets index grid_cols distance_nm nav rec).2 200)))
  ∧ (rec.2.1 ≠ "VerticalStructure" →
      posTexts tc.2 = (posTexts rec.2.2).map (guardedText (fun s =>
        offset_coordinate s (cloneOffsets index grid_cols distance_nm nav rec).1
          (cloneOffsets index grid_cols distance_nm nav rec).2))
      ∧ posListTexts tc.2 = (posListTexts rec.2.2).map (guardedText (fun s =>
        offset_pos_list s (cloneOffsets index grid_cols distance_nm nav rec).1
          (cloneOffsets index grid_cols distance_nm nav rec).2 200)))

/-! ### Concrete fixtures used by witnesses and counterexamples -/

/-- A catalog with no features at all (anchor absent). -/
def emptyFbt : Fbt := fun _ => []

/-- A leaf element with a tag and a text. -/
def leafT (t0 : String) (s : String) : Elem := .mk t0 [] (some s) .nil

/-- A leaf element carrying an `xlink:href` to `urn:uuid:<u>`. -/
def refLeaf (u : String) : Elem :=
  .mk (aixmTag "ref") [(XLINK_HREF, "urn:uuid:" ++ u)] none .nil

/-- A minimal anchor airport element. -/
def ahpC : Elem :=
  .mk (aixmTag "AirportHeliport") [] none
    (.cons (leafT gmlIdentifierTag EADD_UUID) .nil)

/-- A navaid referencing the anchor and the equipment `eq1`. -/
def navC : Elem :=
  .mk (aixmTag "Navaid") [] none
    (.cons (refLeaf EADD_UUID) (.cons (refLeaf "eq1") .nil))

/-- An equipment element with no outgoing references. -/
def eqC : Elem := .mk (aixmTag "DME") [] none .nil

/-- Catalog for the equipment-relevance-repair scenario: the anchor, one
navaid that references it and the equipment, and the equipment itself,
which references nothing. -/
def fbtC3 : Fbt := fun t =>
  if t = "AirportHeliport" then [(EADD_UUID, ahpC)]
  else if t = "Navaid" then [("nav1", navC)]
  else if t = "DME" then [("eq1", eqC)]
  else []

/-- A minimal collected set for clone-level witnesses: one record, keyed
by the anchor UUID. -/
def eW8 : Elem := .mk "X" [] none .nil

def cW8 : List Triple := [(EADD_UUID, "Runway", eW8)]

def genW : Nat → String := fun _ => "W"

/-- The clone of `cW8` at index 0 (computed by the definitions). -/
def pW8 : List (String × Elem) × String :=
  ([("Runway", Elem.mk "X" [(GML_ID, "uuid.W")] none .nil)], "W")

/-- A record whose time-slice lacks both the sequence-number and the
correction-number sub-fields. -/
def tsC9 : Elem := .mk (aixmTag "NavaidTimeSlice") [(GML_ID, "old")] none .nil

def eC9 : Elem := .mk (aixmTag "Navaid") [] none (.cons tsC9 .nil)

/-- A structural obstacle whose time-slice carries a `hostedUnit`
relationship property. -/
def vsW : Elem :=
  .mk (aixmTag "VerticalStructure") [] none
    (.cons (.mk (aixmTag "VerticalStructureTimeSlice") [] none
      (.cons (.mk (aixmTag "hostedUnit") [(XLINK_HREF, "urn:uuid:zzz")] none .nil) .nil)) .nil)

def cW6 : List Triple := [(EADD_UUID, "VerticalStructure", vsW)]

/-- The obstacle's cloned time-slice: relabeled, property removed. -/
def tsW6out : Elem :=
  .mk (aixmTag "VerticalStructureTimeSlice") [(GML_ID, "id_W_1_0_B")] none .nil

def ceW6 : Elem :=
  .mk (aixmTag "VerticalStructure") [(GML_ID, "uuid.W")] none (.cons tsW6out .nil)

def pW6 : List (String × Elem) × String := ([("VerticalStructure", ceW6)], "W")

/-- An anchor airport record with designator and name present. -/
def ahpW7 : Elem :=
  .mk (aixmTag "AirportHeliport") [] none
    (.cons (.mk (aixmTag "AirportHeliportTimeSlice") [] none
      (.cons (.mk aixmDesignatorTag [] (some "EADD") .nil)
        (.cons (.mk aixmNameTag [] (some "DONLON INTL") .nil) .nil))) .nil)

def cW7 : List Triple := [(EADD_UUID, "AirportHeliport", ahpW7)]

def ceW7 : Elem :=
  .mk (aixmTag "AirportHeliport") [(GML_ID, "uuid.W")] none
    (.cons (.mk (aixmTag "AirportHeliportTimeSlice") [(GML_ID, "id_W_1_0_B")] none
      (.cons (.mk aixmDesignatorTag [] (some "E01D") .nil)
        (.cons (.mk aixmNameTag [] (some "DONLON INTL. 01") .nil) .nil))) .nil)

def pW7 : List (String × Elem) × String := ([("AirportHeliport", ceW7)], "W")

/-- A record with one internal reference (to the anchor, i.e. itself)
and one reference to data outside the belonging set. -/
def eW1 : Elem :=
  .mk (aixmTag "Runway") [] none
    (.cons (refLeaf EADD_UUID) (.cons (refLeaf "ext1") .nil))

def cW1 : List Triple := [(EADD_UUID, "Runway", eW1)]

def genWA : Nat → String := fun _ => "GA"

def genWB : Nat → String := fun _ => "GB"

/-- The clone of `cW1` under `genWA`: the internal reference re-pointed
at the fresh identifier, the external one left verbatim. -/
def ceW1 : Elem :=
  .mk (aixmTag "Runway") [(GML_ID, "uuid.GA")] none
    (.cons (.mk (aixmTag "ref") [(XLINK_HREF, "urn:uuid:GA")] none .nil)
      (.cons (refLeaf "ext1") .nil))

def pW1 : List (String × Elem) × String := ([("Runway", ceW1)], "GA")

/-- A record carrying a coordinate whose tokens do not parse as numbers
(so the shift is the identity pass-through). -/
def eW4 : Elem :=
  .mk (aixmTag "Runway") [] none (.cons (.mk gmlPosTag [] (some "a b") .nil) .nil)

def cW4 : List Triple := [(EADD_UUID, "Runway", eW4)]

def ceW4 : Elem :=
  .mk (aixmTag "Runway") [(GML_ID, "uuid.W")] none
    (.cons (.mk gmlPosTag [] (some "a b") .nil) .nil)

def pW4 : List (String × Elem) × String := ([("Runway", ceW4)], "W")

/-! ## Theorems -/

/-- Membership in a Python-set insertion. -/
theorem mem_sadd {s : List String} {x y : String} : x ∈ sadd s y ↔ x ∈ s ∨ x = y := by
  unfold sadd
  split
  · rename_i hy
    constructor
    · exact Or.inl
    · rintro (h | rfl)
      · exact h
      · exact hy
  · simp [List.mem_append]

/-- A fold whose step never loses elements keeps every element of the
accumulator. -/
theorem foldl_mem_of_step {α : Type} (step : List String → α → List String)
    (hmono : ∀ a r x, x ∈ a → x ∈ step a r) :
    ∀ (l : List α) (acc : List String) (x : String), x ∈ acc → x ∈ l.foldl step acc
  | [], _, _, hx => hx
  | r :: rest, acc, x, hx =>
    foldl_mem_of_step step hmono rest (step acc r) x (hmono acc r x hx)

/-- A fold whose step never loses elements and whose step at `r` always
produces `x` puts `x` in the result whenever `r` is in the list. -/
theorem foldl_mem_of_hit {α : Type} [DecidableEq α] (step : List String → α → List String)
    (hmono : ∀ a r x, x ∈ a → x ∈ step a r) (x : String) (r : α)
    (hhit : ∀ a, x ∈ step a r) :
    ∀ (l : List α) (acc : List String), r ∈ l → x ∈ l.foldl step acc
  | [], _, hr => absurd hr (by simp)
  | r0 :: rest, acc, hr => by
    rcases List.mem_cons.mp hr with h1 | h1
    · subst h1
      exact foldl_mem_of_step step hmono rest (step acc r) x (hhit acc)
    · exact foldl_mem_of_hit step hmono x r hhit rest (step acc r0) h1

/-- Length of the `coord_pairs` list: one pair per two tokens, the
trailing unpaired token contributing nothing. -/
theorem buildPairs_length (la lo : ℚ) : ∀ l : List String,
    (buildPairs la lo l).length = l.length / 2
  | [] => by simp [buildPairs]
  | [_] => by simp [buildPairs]
  | _ :: _ :: rest => by
    simp only [buildPairs, List.length_cons, buildPairs_length la lo rest]
    omega

/-- On an odd-length token list, `buildPairs` ignores the final token. -/
theorem buildPairs_dropLast (la lo : ℚ) : ∀ l : List String, Odd l.length →
    buildPairs la lo l = buildPairs la lo l.dropLast
  | [], h => by simp [Nat.odd_iff] at h
  | [_], _ => by simp [buildPairs]
  | a :: b :: rest, h => by
    cases rest with
    | nil => simp [Nat.odd_iff] at h
    | cons c r =>
      have hr : Odd (c :: r).length := by
        rw [Nat.odd_iff] at h ⊢
        simp only [List.length_cons] at h ⊢
        omega
      have hd : (a :: b :: c :: r).dropLast = a :: b :: (c :: r).dropLast := rfl
      rw [hd]
      simp only [buildPairs]
      rw [buildPairs_dropLast la lo (c :: r) hr]

/-- C5: `calculate_grid_offset` returns
`latOffset = (index div columns) * distanceUnit * (1/60)` and
`lonOffset = (index mod columns) * distanceUnit * (1/(60 * 0.6157))`, and
at `index = 7, columns = 6, distanceUnit = 30` gives row 1, column 1,
`latOffset = 1/2` and `lonOffset = 30/(60 * 0.6157)`.  (`0 < grid_cols`
reflects that Python raises `ZeroDivisionError` at 0.) -/
theorem claim_C5 (index grid_cols : Nat) (distance_nm : ℚ) (_h : 0 < grid_cols) :
    calculate_grid_offset index grid_cols distance_nm =
      (((index / grid_cols : Nat) : ℚ) * distance_nm * (1 / 60),
       ((index % grid_cols : Nat) : ℚ) * distance_nm * (1 / (60 * 0.6157)))
    ∧ calculate_grid_offset 7 6 30 = (1 / 2, 30 / (60 * (0.6157 : ℚ)))
    ∧ 7 / 6 = 1 ∧ 7 % 6 = 1 := by
  refine ⟨?_, by norm_num [calculate_grid_offset], by decide, by decide⟩
  simp only [calculate_grid_offset]
  norm_num

/-- Witness for C5 at the claim's concrete input. -/
theorem claim_C5_witness :
    calculate_grid_offset 7 6 30 = (1 / 2, 30 / (60 * (0.6157 : ℚ))) :=
  (claim_C5 7 6 30 (by decide)).2.1

/-- C10: on a coordinate-list string with an odd number of
whitespace-separated tokens, `offset_pos_list` produces exactly
`n / 2` coordinate pairs - the same pairs as for the input without its
trailing token, which is silently dropped - and the returned string is
those pairs, wrapped and joined. -/
theorem claim_C10 (pos_list_str : String) (la lo : ℚ)
    (h : Odd (splitWs pos_list_str).length) :
    (buildPairs la lo (splitWs pos_list_str)).length = (splitWs pos_list_str).length / 2
    ∧ buildPairs la lo (splitWs pos_list_str) =
        buildPairs la lo (splitWs pos_list_str).dropLast
    ∧ offset_pos_list pos_list_str la lo 200 =
        joinWith "\n" (wrapLines 200 (buildPairs la lo (splitWs pos_list_str))) :=
  ⟨buildPairs_length la lo _, buildPairs_dropLast la lo _ h, rfl⟩

/-- Witness for C10 on the odd-length token string `"1 2 3"`. -/
theorem claim_C10_witness :
    (buildPairs 0 0 (splitWs "1 2 3")).length = (splitWs "1 2 3").length / 2
    ∧ buildPairs 0 0 (splitWs "1 2 3") = buildPairs 0 0 (splitWs "1 2 3").dropLast
    ∧ offset_pos_list "1 2 3" 0 0 200 =
        joinWith "\n" (wrapLines 200 (buildPairs 0 0 (splitWs "1 2 3"))) :=
  claim_C10 "1 2 3" 0 0 (by decide)

/-- C2, counterexample: with the anchor absent, `collect_eadd_features`
does not return an empty belonging set as a well-formed result - it
returns the bare empty dict, not a `(collected, navaid_uuids)` 2-tuple -
and the caller's tuple unpacking of that value fails at once
(`ValueError: not enough values to unpack`, modelled by `none`), before
any cloning and regardless of the requested copy count, so an error does
escape to the caller. -/
theorem claim_C2_counterexample :
    collect_eadd_features emptyFbt = .bare []
    ∧ unpackCollect (collect_eadd_features emptyFbt) = none :=
  ⟨rfl, rfl⟩

/-- C2, amended: if the anchor identifier is absent from the catalog's
AirportHeliport mapping, `collect_eadd_features` takes the early
`return collected` exit and hands the caller the bare, still empty dict
rather than the usual 2-tuple; `main`'s tuple unpacking of the result
then raises `ValueError` immediately - before any `clone_feature_set`
call and independently of the requested copy count - so the caller never
observes zero clones produced. -/
theorem claim_C2 (fbt : Fbt)
    (h : lookupA (fbt "AirportHeliport") EADD_UUID = none) :
    collect_eadd_features fbt = .bare []
    ∧ unpackCollect (collect_eadd_features fbt) = none := by
  have h1 : collect_eadd_features fbt = .bare [] := by
    simp [collect_eadd_features, h]
  exact ⟨h1, by rw [h1]; rfl⟩

/-- Witness for the amended C2 at the empty catalog. -/
theorem claim_C2_witness :
    collect_eadd_features emptyFbt = .bare []
    ∧ unpackCollect (collect_eadd_features emptyFbt) = none :=
  claim_C2 emptyFbt rfl

/-- C3: a navigation-equipment record not tagged during the bottom-up
equipment pass, but referenced by the hrefs of a navaid that is marked
locally relevant after the bottom-up passes, is tagged by the corrective
top-down pass and ends up in the locally-relevant set that
`collect_eadd_features` returns. -/
theorem claim_C3 (fbt : Fbt) (ahp : Elem) (n u : String) (ne : Elem)
    (hA : lookupA (fbt "AirportHeliport") EADD_UUID = some ahp)
    (hn : n ∈ (bottomUpState fbt ahp).2)
    (hnav : lookupA (fbt "Navaid") n = some ne)
    (href : u ∈ get_xlink_hrefs ne)
    (heq : NAVAID_EQUIPMENT_TYPES.any (fun q => (lookupA (fbt q) u).isSome) = true)
    (_hmiss : ¬ u ∈ (bottomUpState fbt ahp).2) :
    ∃ p, unpackCollect (collect_eadd_features fbt) = some p ∧ u ∈ p.2 := by
  refine ⟨(airspaceStage fbt (vsStage fbt (bottomUpState fbt ahp).1),
           topDownStage fbt (bottomUpState fbt ahp).2), ?_, ?_⟩
  · simp [collect_eadd_features, hA, unpackCollect]
  show u ∈ topDownStage fbt (bottomUpState fbt ahp).2
  unfold topDownStage
  have hmonoInner : ∀ (a : List String) (r x : String), x ∈ a →
      x ∈ (if NAVAID_EQUIPMENT_TYPES.any (fun eq_type => (lookupA (fbt eq_type) r).isSome)
           then sadd a r else a) := by
    intro a r x hx
    split
    · exact mem_sadd.mpr (Or.inl hx)
    · exact hx
  have hmono : ∀ (a : List String) (r x : String), x ∈ a →
      x ∈ (match lookupA (fbt "Navaid") r with
           | none => a
           | some e =>
             (get_xlink_hrefs e).foldl
               (fun acc2 r2 =>
                 if NAVAID_EQUIPMENT_TYPES.any (fun eq_type => (lookupA (fbt eq_type) r2).isSome)
                 then sadd acc2 r2 else acc2) a) := by
    intro a r x hx
    cases hl : lookupA (fbt "Navaid") r with
    | none => exact hx
    | some e => exact foldl_mem_of_step _ hmonoInner _ _ _ hx
  refine foldl_mem_of_hit _ hmono u n ?_ _ _ hn
  intro a
  rw [hnav]
  refine foldl_mem_of_hit _ hmonoInner u u ?_ _ _ href
  intro a2
  rw [heq]
  simp only [if_true]
  exact mem_sadd.mpr (Or.inr rfl)

/-- Witness for C3: in `fbtC3` the equipment `eq1` has no outgoing links
(so the bottom-up pass misses it) but is referenced by the
locally-relevant navaid `nav1`; the top-down pass tags it. -/
theorem claim_C3_witness :
    ∃ p, unpackCollect (collect_eadd_features fbtC3) = some p ∧ "eq1" ∈ p.2 :=
  claim_C3 fbtC3 ahpC "nav1" "eq1" navC rfl (by decide) rfl
    (by decide) (by decide) (by decide)

/-! ### Association-list lemmas -/

theorem lookupA_setA_self (a : List (String × String)) (k v : String) :
    lookupA (setA a k v) k = some v := by
  induction a with
  | nil => simp [setA, lookupA]
  | cons p rest ih =>
    by_cases h : p.1 = k
    · simp [setA, h, lookupA]
    · simp [setA, h, lookupA, ih]

theorem lookupA_setA_ne (a : List (String × String)) (k v k' : String) (h : k ≠ k') :
    lookupA (setA a k v) k' = lookupA a k' := by
  induction a with
  | nil => simp [setA, lookupA, h]
  | cons p rest ih =>
    by_cases hp : p.1 = k
    · subst hp
      simp [setA, lookupA, h, ih]
    · simp [setA, hp, lookupA, ih]

theorem lookupA_mem_vals {m : List (String × String)} {k v : String}
    (h : lookupA m k = some v) : v ∈ valsA m := by
  induction m with
  | nil => simp [lookupA] at h
  | cons p rest ih =>
    simp only [lookupA] at h
    by_cases hp : p.1 = k
    · simp only [hp, if_true] at h
      cases h
      simp [valsA]
    · simp only [hp, if_false] at h
      exact List.mem_cons_of_mem _ (ih h)

/-! ### `Forall₂` and `Sublist` glue -/

theorem forall₂_appendD {α : Type} {R : α → α → Prop} :
    ∀ {l1 l2 l3 l4 : List α}, List.Forall₂ R l1 l2 → List.Forall₂ R l3 l4 →
      List.Forall₂ R (l1 ++ l3) (l2 ++ l4) := by
  intro l1 l2 l3 l4 h1 h2
  induction h1 with
  | nil => exact h2
  | cons h _ ih => exact List.Forall₂.cons h ih

theorem forall₂_mem_right {α β : Type} {R : α → β → Prop} :
    ∀ {l1 : List α} {l2 : List β}, List.Forall₂ R l1 l2 → ∀ {b}, b ∈ l2 →
      ∃ a ∈ l1, R a b := by
  intro l1 l2 h
  induction h with
  | nil => intro b hb; simp at hb
  | cons hr _ ih =>
    intro b hb
    rcases List.mem_cons.mp hb with rfl | hb2
    · exact ⟨_, List.mem_cons_self _ _, hr⟩
    · rcases ih hb2 with ⟨a, ha, har⟩
      exact ⟨a, List.mem_cons_of_mem _ ha, har⟩

theorem forall₂_filterMap_eq {α β : Type} (f : α → Option β) {R : α → α → Prop}
    (hfR : ∀ a b, R a b → f a = f b) :
    ∀ {l1 l2 : List α}, List.Forall₂ R l1 l2 → l1.filterMap f = l2.filterMap f := by
  intro l1 l2 h
  induction h with
  | nil => rfl
  | cons hr _ ih =>
    simp only [List.filterMap_cons]
    rw [hfR _ _ hr, ih]

theorem sublist_forall₂ {α : Type} {R : α → α → Prop} :
    ∀ {l1 l2 l3 : List α}, l1.Sublist l2 → List.Forall₂ R l2 l3 →
      ∃ l4, List.Forall₂ R l1 l4 ∧ l4.Sublist l3 := by
  intro l1 l2 l3 hs
  induction hs generalizing l3 with
  | slnil =>
    intro h
    cases h
    exact ⟨[], List.Forall₂.nil, List.Sublist.refl _⟩
  | cons a hs ih =>
    intro h
    cases h with
    | cons hr htail =>
      rcases ih htail with ⟨l4, hf, hsub⟩
      exact ⟨l4, hf, hsub.trans (List.sublist_cons_self _ _)⟩
  | cons₂ a hs ih =>
    intro h
    cases h with
    | cons hr htail =>
      rcases ih htail with ⟨l4, hf, hsub⟩
      exact ⟨_ :: l4, List.Forall₂.cons hr hf, hsub.cons₂ _⟩

/-! ### `nodeRelEx` and its closure properties -/

theorem nodeRelEx_refl (ex : List String) (n : NodeD) : nodeRelEx ex n n :=
  ⟨rfl, rfl, fun _ => rfl⟩

theorem nodeRelEx_trans {ex : List String} {a b c : NodeD}
    (h1 : nodeRelEx ex a b) (h2 : nodeRelEx ex b c) : nodeRelEx ex a c :=
  ⟨h1.1.trans h2.1, h1.2.1.trans h2.2.1,
   fun hc => (h1.2.2 (by rw [h2.1]; exact hc)).trans (h2.2.2 hc)⟩

theorem nodeRelEx_mono {ex ex' : List String} (hsub : ∀ t, t ∈ ex → t ∈ ex')
    {a b : NodeD} (h : nodeRelEx ex a b) : nodeRelEx ex' a b :=
  ⟨h.1, h.2.1, fun hc => h.2.2 (fun hmem => hc (hsub _ hmem))⟩

theorem NRel_refl (ex : List String) (l : List NodeD) : NRel ex l l :=
  List.forall₂_same.mpr (fun n _ => nodeRelEx_refl ex n)

theorem NRel_append {ex : List String} {l1 l2 l3 l4 : List NodeD}
    (h1 : NRel ex l1 l2) (h2 : NRel ex l3 l4) : NRel ex (l1 ++ l3) (l2 ++ l4) :=
  forall₂_appendD h1 h2

theorem NRel_trans {ex : List String} :
    ∀ {l1 l2 l3 : List NodeD}, NRel ex l1 l2 → NRel ex l2 l3 → NRel ex l1 l3 := by
  intro l1 l2 l3 h1
  induction h1 generalizing l3 with
  | nil => intro h; exact h
  | cons hr _ ih =>
    intro h
    cases h with
    | cons hr2 htail => exact List.Forall₂.cons (nodeRelEx_trans hr hr2) (ih htail)

theorem NRel_mono {ex ex' : List String} (hsub : ∀ t, t ∈ ex → t ∈ ex')
    {l1 l2 : List NodeD} (h : NRel ex l1 l2) : NRel ex' l1 l2 :=
  List.Forall₂.imp (fun _ _ hr => nodeRelEx_mono hsub hr) h

theorem SubRel_of_NRel {ex : List String} {l1 l2 : List NodeD} (h : NRel ex l1 l2) :
    SubRel ex l1 l2 :=
  ⟨l2, h, List.Sublist.refl _⟩

theorem SubRel_refl (ex : List String) (l : List NodeD) : SubRel ex l l :=
  SubRel_of_NRel (NRel_refl ex l)

theorem SubRel_append {ex : List String} {l1 l2 l3 l4 : List NodeD}
    (h1 : SubRel ex l1 l2) (h2 : SubRel ex l3 l4) : SubRel ex (l1 ++ l3) (l2 ++ l4) := by
  rcases h1 with ⟨m1, hf1, hs1⟩
  rcases h2 with ⟨m2, hf2, hs2⟩
  exact ⟨m1 ++ m2, NRel_append hf1 hf2, List.Sublist.append hs1 hs2⟩

theorem SubRel_trans {ex : List String} {l1 l2 l3 : List NodeD}
    (h1 : SubRel ex l1 l2) (h2 : SubRel ex l2 l3) : SubRel ex l1 l3 := by
  rcases h1 with ⟨m1, hf1, hs1⟩
  rcases h2 with ⟨m2, hf2, hs2⟩
  rcases sublist_forall₂ hs1 hf2 with ⟨m4, hf4, hsub4⟩
  exact ⟨m4, NRel_trans hf1 hf4, hsub4.trans hs2⟩

/-- Under `nodeRelEx ex`, nodes contribute equal hrefs. -/
theorem hrefOfNode_eq_of_rel {ex : List String} {a b : NodeD} (h : nodeRelEx ex a b) :
    hrefOfNode a = hrefOfNode b := by
  unfold hrefOfNode
  rw [h.2.1]

theorem hrefs_eq_of_NRel {ex : List String} {l1 l2 : List NodeD} (h : NRel ex l1 l2) :
    l1.filterMap hrefOfNode = l2.filterMap hrefOfNode :=
  forall₂_filterMap_eq hrefOfNode (fun _ _ hr => hrefOfNode_eq_of_rel hr) h

/-- Under `nodeRelEx ex` with `t0` not exempted, nodes contribute equal
`textsBy t0` entries. -/
theorem textsBy_eq_of_NRel {ex : List String} (t0 : String) (ht0 : ¬ t0 ∈ ex)
    {l1 l2 : List NodeD} (h : NRel ex l1 l2) :
    l1.filterMap (fun n => if n.tag = t0 then some n.text else none) =
      l2.filterMap (fun n => if n.tag = t0 then some n.text else none) := by
  refine forall₂_filterMap_eq _ ?_ h
  intro a b hr
  rw [hr.1]
  by_cases ht : b.tag = t0
  · simp only [ht, if_true]
    rw [hr.2.2 (by rw [ht]; exact ht0)]
  · simp [ht]

/-! ### `nodes` of each transform -/

mutual

theorem mapNodes_nodes (φ : NodeD → NodeD) :
    ∀ e : Elem, (mapNodes φ e).nodes = e.nodes.map φ
  | .mk t a x cs => by
    simp only [mapNodes, Elem.nodes, List.map_cons]
    rw [mapNodesL_nodes φ cs]

theorem mapNodesL_nodes (φ : NodeD → NodeD) :
    ∀ l : ElemList, (mapNodesL φ l).nodes = l.nodes.map φ
  | .nil => rfl
  | .cons e l => by
    simp only [mapNodesL, ElemList.nodes, List.map_append]
    rw [mapNodes_nodes φ e, mapNodesL_nodes φ l]

end

mutual

/-- `mapFirstIncl` relates node lists whenever `f` does, for any relation
closed under reflexivity and appending. -/
theorem mapFirstIncl_nodes (p : String → Bool) (f : Elem → Elem)
    (Φ : List NodeD → List NodeD → Prop)
    (hrefl : ∀ l, Φ l l)
    (happ : ∀ {l1 l2 l3 l4}, Φ l1 l2 → Φ l3 l4 → Φ (l1 ++ l3) (l2 ++ l4))
    (hf : ∀ x, Φ (Elem.nodes (f x)) (Elem.nodes x)) :
    ∀ e : Elem, Φ ((mapFirstIncl p f e).nodes) e.nodes
  | .mk t a x cs => by
    by_cases hp : p t
    · simp only [mapFirstIncl, hp, if_true]
      exact hf _
    · simp only [mapFirstIncl, hp, if_false, Elem.nodes]
      exact happ (hrefl [⟨t, a, x⟩]) (mapFirstL_nodes p f Φ hrefl happ hf cs)

theorem mapFirstL_nodes (p : String → Bool) (f : Elem → Elem)
    (Φ : List NodeD → List NodeD → Prop)
    (hrefl : ∀ l, Φ l l)
    (happ : ∀ {l1 l2 l3 l4}, Φ l1 l2 → Φ l3 l4 → Φ (l1 ++ l3) (l2 ++ l4))
    (hf : ∀ x, Φ (Elem.nodes (f x)) (Elem.nodes x)) :
    ∀ l : ElemList, Φ ((mapFirstL p f l).nodes) l.nodes
  | .nil => hrefl _
  | .cons e l => by
    cases hs : findFirstIncl p e with
    | some r =>
      simp only [mapFirstL, hs, ElemList.nodes]
      exact happ (mapFirstIncl_nodes p f Φ hrefl happ hf e) (hrefl _)
    | none =>
      simp only [mapFirstL, hs, ElemList.nodes]
      exact happ (hrefl _) (mapFirstL_nodes p f Φ hrefl happ hf l)

end

theorem mapFirstDesc_nodes (p : String → Bool) (f : Elem → Elem)
    (Φ : List NodeD → List NodeD → Prop)
    (hrefl : ∀ l, Φ l l)
    (happ : ∀ {l1 l2 l3 l4}, Φ l1 l2 → Φ l3 l4 → Φ (l1 ++ l3) (l2 ++ l4))
    (hf : ∀ x, Φ (Elem.nodes (f x)) (Elem.nodes x)) :
    ∀ e : Elem, Φ ((mapFirstDesc p f e).nodes) e.nodes
  | .mk t a x cs => by
    simp only [mapFirstDesc, Elem.nodes]
    exact happ (hrefl [⟨t, a, x⟩]) (mapFirstL_nodes p f Φ hrefl happ hf cs)

mutual

/-- Renumbering touches only `gml:id` attributes, so it relates node
lists by `nodeRelEx []`. -/
theorem renumE_nodes (base : String) :
    ∀ (e : Elem) (n : Nat), NRel [] (((renumE base e n).1).nodes) e.nodes
  | .mk t a x cs, n => by
    cases hg : lookupA a GML_ID with
    | some v =>
      simp only [renumE, hg, Elem.nodes]
      refine List.Forall₂.cons ?_ (renumL_nodes base cs (n + 1))
      refine ⟨rfl, ?_, fun _ => rfl⟩
      exact lookupA_setA_ne a GML_ID _ XLINK_HREF (by decide)
    | none =>
      simp only [renumE, hg, Elem.nodes]
      exact List.Forall₂.cons (nodeRelEx_refl _ _) (renumL_nodes base cs n)

theorem renumL_nodes (base : String) :
    ∀ (l : ElemList) (n : Nat), NRel [] (((renumL base l n).1).nodes) l.nodes
  | .nil, _ => List.Forall₂.nil
  | .cons e l, n => by
    simp only [renumL, ElemList.nodes]
    exact NRel_append (renumE_nodes base e n) (renumL_nodes base l _)

end

/-- `tsRelabel` sets the time-slice's `gml:id` and renumbers descendants:
`nodeRelEx []`. -/
theorem tsRelabel_nodes (idb : String) (ts : Elem) :
    NRel [] ((tsRelabel idb ts).nodes) ts.nodes := by
  cases ts with
  | mk t a x cs =>
    simp only [tsRelabel, Elem.nodes]
    refine List.Forall₂.cons ⟨rfl, ?_, fun _ => rfl⟩ (renumL_nodes idb cs 1)
    exact lookupA_setA_ne a GML_ID _ XLINK_HREF (by decide)

/-- A pure text edit relates node lists by `nodeRelEx ex` whenever the
root's tag is exempted. -/
theorem textEdit_nodes {ex : List String} (g : Option String → Option String)
    (c : Elem) (hc : c.tag ∈ ex) : NRel ex ((textEdit g c).nodes) c.nodes := by
  cases c with
  | mk t a x cs =>
    simp only [textEdit, Elem.nodes]
    refine List.Forall₂.cons ⟨rfl, rfl, fun hmem => absurd hc hmem⟩ (NRel_refl ex _)

theorem editFirstChildL_nodes {ex : List String} (t0 : String) (f : Elem → Elem)
    (hf : ∀ c : Elem, c.tag = t0 → NRel ex ((f c).nodes) c.nodes) :
    ∀ l : ElemList, NRel ex ((editFirstChildL t0 f l).nodes) l.nodes
  | .nil => List.Forall₂.nil
  | .cons c rest => by
    by_cases hc : c.tag = t0
    · simp only [editFirstChildL, hc, if_true, ElemList.nodes]
      exact NRel_append (hf c hc) (NRel_refl ex _)
    · simp only [editFirstChildL, hc, if_false, ElemList.nodes]
      exact NRel_append (NRel_refl ex _) (editFirstChildL_nodes t0 f hf rest)

theorem editFirstChild_nodes {ex : List String} (t0 : String) (f : Elem → Elem)
    (hf : ∀ c : Elem, c.tag = t0 → NRel ex ((f c).nodes) c.nodes) (e : Elem) :
    NRel ex ((editFirstChild t0 f e).nodes) e.nodes := by
  cases e with
  | mk t a x cs =>
    simp only [editFirstChild, Elem.nodes]
    exact List.Forall₂.cons (nodeRelEx_refl ex _) (editFirstChildL_nodes t0 f hf cs)

theorem editFirstChildText_nodes {ex : List String} (t0 : String)
    (g : Option String → Option String) (ht0 : t0 ∈ ex) (e : Elem) :
    NRel ex ((editFirstChildText t0 g e).nodes) e.nodes :=
  editFirstChild_nodes t0 (textEdit g)
    (fun c hc => textEdit_nodes g c (by rw [hc]; exact ht0)) e

mutual

/-- `mapTag` relates node lists for any reflexive, appendable, transitive
relation that `f` establishes at matching tags. -/
theorem mapTag_nodes (t0 : String) (f : Elem → Elem)
    (Φ : List NodeD → List NodeD → Prop)
    (hrefl : ∀ l, Φ l l)
    (happ : ∀ {l1 l2 l3 l4}, Φ l1 l2 → Φ l3 l4 → Φ (l1 ++ l3) (l2 ++ l4))
    (htrans : ∀ {l1 l2 l3}, Φ l1 l2 → Φ l2 l3 → Φ l1 l3)
    (hf : ∀ x : Elem, x.tag = t0 → Φ (Elem.nodes (f x)) (Elem.nodes x)) :
    ∀ e : Elem, Φ ((mapTag t0 f e).nodes) e.nodes
  | .mk t a x cs => by
    have hrec : Φ ((Elem.mk t a x (mapTagL t0 f cs)).nodes) ((Elem.mk t a x cs).nodes) := by
      simp only [Elem.nodes]
      exact happ (hrefl [⟨t, a, x⟩]) (mapTagL_nodes t0 f Φ hrefl happ htrans hf cs)
    by_cases hp : t = t0
    · subst hp
      simp only [mapTag, if_true]
      exact htrans (hf _ (by simp [Elem.tag])) hrec
    · simp only [mapTag, hp, if_false]
      exact hrec

theorem mapTagL_nodes (t0 : String) (f : Elem → Elem)
    (Φ : List NodeD → List NodeD → Prop)
    (hrefl : ∀ l, Φ l l)
    (happ : ∀ {l1 l2 l3 l4}, Φ l1 l2 → Φ l3 l4 → Φ (l1 ++ l3) (l2 ++ l4))
    (htrans : ∀ {l1 l2 l3}, Φ l1 l2 → Φ l2 l3 → Φ l1 l3)
    (hf : ∀ x : Elem, x.tag = t0 → Φ (Elem.nodes (f x)) (Elem.nodes x)) :
    ∀ l : ElemList, Φ ((mapTagL t0 f l).nodes) l.nodes
  | .nil => hrefl _
  | .cons e l => by
    simp only [mapTagL, ElemList.nodes]
    exact happ (mapTag_nodes t0 f Φ hrefl happ htrans hf e)
      (mapTagL_nodes t0 f Φ hrefl happ htrans hf l)

end

/-- Property removal keeps a sublist of the nodes. -/
theorem removePropsL_nodes :
    ∀ l : ElemList, ((removePropsL l).nodes).Sublist l.nodes
  | .nil => List.Sublist.refl _
  | .cons c rest => by
    by_cases hc : c.tag ∈ vsPropTags
    · simp only [removePropsL, hc, if_true, ElemList.nodes]
      exact (removePropsL_nodes rest).trans (List.sublist_append_right _ _)
    · simp only [removePropsL, hc, if_false, ElemList.nodes]
      exact List.Sublist.append_left (removePropsL_nodes rest) _

theorem removeProps_nodes (ts : Elem) : ((removeProps ts).nodes).Sublist ts.nodes := by
  cases ts with
  | mk t a x cs =>
    simp only [removeProps, Elem.nodes]
    exact List.Sublist.cons₂ _ (removePropsL_nodes cs)

/-! ### Stage lemmas: `update_feature_ids` -/

theorem setRootAttr_nodes (e : Elem) (v : String) :
    NRel [] ((setRootAttr e GML_ID v).nodes) e.nodes := by
  cases e with
  | mk t a x cs =>
    simp only [setRootAttr, Elem.nodes]
    refine List.Forall₂.cons ⟨rfl, ?_, fun _ => rfl⟩ (NRel_refl [] _)
    exact lookupA_setA_ne a GML_ID v XLINK_HREF (by decide)

theorem prepIds_nodes (e : Elem) (u : String) :
    NRel [gmlIdentifierTag] ((prepIds e u).nodes) e.nodes := by
  have h1 : NRel [gmlIdentifierTag] ((setRootAttr e GML_ID ("uuid." ++ u)).nodes) e.nodes :=
    NRel_mono (by simp) (setRootAttr_nodes e ("uuid." ++ u))
  have h2 : NRel [gmlIdentifierTag]
      ((editFirstChildText gmlIdentifierTag (fun _ => some u)
        (setRootAttr e GML_ID ("uuid." ++ u))).nodes)
      ((setRootAttr e GML_ID ("uuid." ++ u)).nodes) :=
    editFirstChildText_nodes gmlIdentifierTag (fun _ => some u) (by simp) _
  exact NRel_trans h2 h1

theorem update_feature_ids_nodes {e e1 : Elem} {u : String}
    (h : update_feature_ids e u = some e1) :
    NRel [gmlIdentifierTag] e1.nodes e.nodes := by
  unfold update_feature_ids at h
  split at h
  · cases h
    exact prepIds_nodes e u
  · split at h
    · cases h
      refine NRel_trans ?_ (prepIds_nodes e u)
      refine mapFirstDesc_nodes isTsTag _ (NRel [gmlIdentifierTag]) (NRel_refl _)
        (fun h1 h2 => NRel_append h1 h2) ?_ _
      intro x
      exact NRel_mono (by simp) (tsRelabel_nodes _ x)
    · exact Option.noConfusion h

/-! ### Stage lemmas: `update_xlink_refs` -/

theorem updHrefNode_tag (m : List (String × String)) (n : NodeD) :
    (updHrefNode m n).tag = n.tag := by
  unfold updHrefNode
  cases lookupA n.attrs XLINK_HREF with
  | none => rfl
  | some h =>
    by_cases hs : startsWithStr h "urn:uuid:"
    · simp only [hs, if_true]
      cases lookupA m (eraseSub "urn:uuid:" h) <;> rfl
    · simp [hs]

theorem updHrefNode_text (m : List (String × String)) (n : NodeD) :
    (updHrefNode m n).text = n.text := by
  unfold updHrefNode
  cases lookupA n.attrs XLINK_HREF with
  | none => rfl
  | some h =>
    by_cases hs : startsWithStr h "urn:uuid:"
    · simp only [hs, if_true]
      cases lookupA m (eraseSub "urn:uuid:" h) <;> rfl
    · simp [hs]

theorem filterMap_map_congr {α β : Type} {f : α → Option β} {φ : α → α}
    (h : ∀ a, f (φ a) = f a) : ∀ l : List α, (l.map φ).filterMap f = l.filterMap f := by
  intro l
  induction l with
  | nil => rfl
  | cons a rest ih => simp only [List.map_cons, List.filterMap_cons, h a, ih]

theorem filterMap_map_comm {α β : Type} {f : α → Option β} {φ : α → α} {g : β → β}
    (h : ∀ a, f (φ a) = (f a).map g) :
    ∀ l : List α, (l.map φ).filterMap f = (l.filterMap f).map g := by
  intro l
  induction l with
  | nil => rfl
  | cons a rest ih =>
    simp only [List.map_cons, List.filterMap_cons, h a, ih]
    cases f a <;> simp

theorem textsBy_update_xlink_refs (t0 : String) (e : Elem) (m : List (String × String)) :
    textsBy t0 (update_xlink_refs e m) = textsBy t0 e := by
  unfold textsBy update_xlink_refs
  rw [mapNodes_nodes]
  refine filterMap_map_congr ?_ _
  intro n
  rw [updHrefNode_tag m n]
  by_cases ht : n.tag = t0
  · simp only [ht, if_true, updHrefNode_text m n]
  · simp [ht]

/-! Small computational facts about `hrefOfNode` and `updHrefNode`. -/

theorem hrefOfNode_of_some {n : NodeD} {h : String}
    (hattr : lookupA n.attrs XLINK_HREF = some h)
    (hs : startsWithStr h "urn:uuid:" = true) :
    hrefOfNode n = some (eraseSub "urn:uuid:" h) := by
  unfold hrefOfNode
  rw [hattr]
  simp [hs]

theorem hrefOfNode_of_none {n : NodeD}
    (hattr : lookupA n.attrs XLINK_HREF = none) : hrefOfNode n = none := by
  unfold hrefOfNode
  rw [hattr]

theorem hrefOfNode_of_nonuuid {n : NodeD} {h : String}
    (hattr : lookupA n.attrs XLINK_HREF = some h)
    (hs : startsWithStr h "urn:uuid:" = false) : hrefOfNode n = none := by
  unfold hrefOfNode
  rw [hattr]
  simp [hs]

theorem updHrefNode_id_none {m : List (String × String)} {n : NodeD}
    (hattr : lookupA n.attrs XLINK_HREF = none) : updHrefNode m n = n := by
  unfold updHrefNode
  rw [hattr]

theorem updHrefNode_id_nonuuid {m : List (String × String)} {n : NodeD} {h : String}
    (hattr : lookupA n.attrs XLINK_HREF = some h)
    (hs : startsWithStr h "urn:uuid:" = false) : updHrefNode m n = n := by
  unfold updHrefNode
  rw [hattr]
  simp [hs]

theorem updHrefNode_id_nokey {m : List (String × String)} {n : NodeD} {h : String}
    (hattr : lookupA n.attrs XLINK_HREF = some h)
    (hs : startsWithStr h "urn:uuid:" = true)
    (hlk : lookupA m (eraseSub "urn:uuid:" h) = none) : updHrefNode m n = n := by
  unfold updHrefNode
  rw [hattr]
  simp [hs, hlk]

theorem updHrefNode_set {m : List (String × String)} {n : NodeD} {h nu : String}
    (hattr : lookupA n.attrs XLINK_HREF = some h)
    (hs : startsWithStr h "urn:uuid:" = true)
    (hlk : lookupA m (eraseSub "urn:uuid:" h) = some nu) :
    updHrefNode m n = ⟨n.tag, setA n.attrs XLINK_HREF ("urn:uuid:" ++ nu), n.text⟩ := by
  unfold updHrefNode
  rw [hattr]
  simp [hs, hlk]

/-- Node-level core of C1: an href collected from an updated node is a
map value, or a non-key href of the original node.  `hclean` states that
the generated identifiers survive the `urn:uuid:` round-trip (true of
every actual UUID string). -/
theorem updHrefNode_href {m : List (String × String)}
    (hclean : ∀ k nu, lookupA m k = some nu →
      eraseSub "urn:uuid:" ("urn:uuid:" ++ nu) = nu)
    (n : NodeD) (v : String) (hv : hrefOfNode (updHrefNode m n) = some v) :
    v ∈ valsA m ∨ (lookupA m v = none ∧ hrefOfNode n = some v) := by
  cases hattr : lookupA n.attrs XLINK_HREF with
  | none =>
    rw [updHrefNode_id_none hattr, hrefOfNode_of_none hattr] at hv
    cases hv
  | some h =>
    cases hs : startsWithStr h "urn:uuid:" with
    | false =>
      rw [updHrefNode_id_nonuuid hattr hs, hrefOfNode_of_nonuuid hattr hs] at hv
      cases hv
    | true =>
      cases hlk : lookupA m (eraseSub "urn:uuid:" h) with
      | some nu =>
        rw [updHrefNode_set hattr hs hlk] at hv
        cases hs2 : startsWithStr ("urn:uuid:" ++ nu) "urn:uuid:" with
        | false =>
          rw [hrefOfNode_of_nonuuid (lookupA_setA_self _ _ _) hs2] at hv
          cases hv
        | true =>
          rw [hrefOfNode_of_some (lookupA_setA_self _ _ _) hs2] at hv
          cases hv
          left
          rw [hclean _ _ hlk]
          exact lookupA_mem_vals hlk
      | none =>
        rw [updHrefNode_id_nokey hattr hs hlk, hrefOfNode_of_some hattr hs] at hv
        cases hv
        exact Or.inr ⟨hlk, hrefOfNode_of_some hattr hs⟩

/-- The core of C1 at the element level. -/
theorem update_xlink_refs_hrefs {e : Elem} {m : List (String × String)}
    (hclean : ∀ k nu, lookupA m k = some nu →
      eraseSub "urn:uuid:" ("urn:uuid:" ++ nu) = nu) :
    ∀ v ∈ get_xlink_hrefs (update_xlink_refs e m),
      v ∈ valsA m ∨ (lookupA m v = none ∧ v ∈ get_xlink_hrefs e) := by
  intro v hv
  unfold get_xlink_hrefs update_xlink_refs at hv
  rw [mapNodes_nodes] at hv
  rcases List.mem_filterMap.mp hv with ⟨n0, hn0, hhref⟩
  rcases List.mem_map.mp hn0 with ⟨n, hn, rfl⟩
  rcases updHrefNode_href hclean n v hhref with hl | ⟨hnone, horig⟩
  · exact Or.inl hl
  · exact Or.inr ⟨hnone, List.mem_filterMap.mpr ⟨n, hn, horig⟩⟩

/-- Every href in the output of `update_xlink_refs` is still accounted
for; conversely the hrefs of the input that are not keys survive. -/
theorem get_xlink_hrefs_eq_of_NRel {ex : List String} {e1 e2 : Elem}
    (h : NRel ex e1.nodes e2.nodes) : get_xlink_hrefs e1 = get_xlink_hrefs e2 :=
  hrefs_eq_of_NRel h

theorem textsBy_eq_of_NRel' {ex : List String} (t0 : String) (ht0 : ¬ t0 ∈ ex)
    {e1 e2 : Elem} (h : NRel ex e1.nodes e2.nodes) : textsBy t0 e1 = textsBy t0 e2 :=
  textsBy_eq_of_NRel t0 ht0 h

/-! ### Stage lemmas: `offset_all_coordinates` -/

theorem textNodeEdit_href (t0 : String) (g : Option String → Option String) (n : NodeD) :
    hrefOfNode (textNodeEdit t0 g n) = hrefOfNode n := by
  unfold textNodeEdit hrefOfNode
  by_cases ht : n.tag = t0 <;> simp [ht]

theorem textNodeEdit_proj_ne (t0 t1 : String) (hne : t1 ≠ t0)
    (g : Option String → Option String) (n : NodeD) :
    (if (textNodeEdit t0 g n).tag = t1 then some (textNodeEdit t0 g n).text else none) =
      (if n.tag = t1 then some n.text else none) := by
  unfold textNodeEdit
  by_cases ht : n.tag = t0
  · simp only [ht, if_true]
    simp [ht, hne.symm]
  · simp [ht]

theorem textNodeEdit_proj_eq (t0 : String) (g : Option String → Option String) (n : NodeD) :
    (if (textNodeEdit t0 g n).tag = t0 then some (textNodeEdit t0 g n).text else none) =
      ((if n.tag = t0 then some n.text else none).map g) := by
  unfold textNodeEdit
  by_cases ht : n.tag = t0 <;> simp [ht]

theorem posTexts_offset_all (e : Elem) (la lo : ℚ) :
    posTexts (offset_all_coordinates e la lo) =
      (posTexts e).map (guardedText (fun s => offset_coordinate s la lo)) := by
  unfold offset_all_coordinates posTexts textsBy
  rw [mapNodes_nodes, mapNodes_nodes]
  rw [filterMap_map_congr (textNodeEdit_proj_ne gmlPosListTag gmlPosTag (by decide) _)]
  exact filterMap_map_comm (textNodeEdit_proj_eq gmlPosTag _) _

theorem posListTexts_offset_all (e : Elem) (la lo : ℚ) :
    posListTexts (offset_all_coordinates e la lo) =
      (posListTexts e).map (guardedText (fun s => offset_pos_list s la lo 200)) := by
  unfold offset_all_coordinates posListTexts textsBy
  rw [mapNodes_nodes, mapNodes_nodes]
  rw [filterMap_map_comm (textNodeEdit_proj_eq gmlPosListTag _)]
  rw [filterMap_map_congr (textNodeEdit_proj_ne gmlPosTag gmlPosListTag (by decide) _)]

theorem hrefs_offset_all (e : Elem) (la lo : ℚ) :
    get_xlink_hrefs (offset_all_coordinates e la lo) = get_xlink_hrefs e := by
  unfold offset_all_coordinates get_xlink_hrefs
  rw [mapNodes_nodes, mapNodes_nodes]
  rw [filterMap_map_congr (textNodeEdit_href gmlPosListTag _)]
  rw [filterMap_map_congr (textNodeEdit_href gmlPosTag _)]

/-! ### Stage lemmas: the relabeling branches -/

theorem suffixTs_nodes (sfx : String) (ts : Elem) :
    NRel [aixmDesignatorTag, aixmNameTag] ((suffixTs sfx ts).nodes) ts.nodes := by
  unfold suffixTs
  refine NRel_trans (editFirstChildText_nodes aixmNameTag _ (by simp) _) ?_
  exact editFirstChildText_nodes aixmDesignatorTag _ (by simp) _

theorem ahpTs_nodes (index : Nat) (ts : Elem) :
    NRel [aixmDesignatorTag, aixmNameTag] ((ahpTs index ts).nodes) ts.nodes := by
  unfold ahpTs
  refine NRel_trans (editFirstChildText_nodes aixmNameTag _ (by simp) _) ?_
  exact editFirstChildText_nodes aixmDesignatorTag _ (by simp) _

theorem vsPartEdit_nodes (sfx : String) (part : Elem) :
    NRel [aixmDesignatorTag, aixmNameTag] ((vsPartEdit sfx part).nodes) part.nodes := by
  unfold vsPartEdit
  refine editFirstChild_nodes aixmDesignatorTag _ ?_ part
  intro c hc
  cases hx : c.text with
  | none => exact NRel_refl _ _
  | some s =>
    by_cases hstrip : stripStr s = ""
    · simp only [hstrip, if_true]
      exact NRel_refl _ _
    · simp only [hstrip, if_false]
      cases hnil : getAttr c XSI_NIL with
      | none => exact textEdit_nodes _ c (by rw [hc]; simp)
      | some v =>
        by_cases hv : v = ""
        · simp only [hv, if_true]
          exact textEdit_nodes _ c (by rw [hc]; simp)
        · simp only [hv, if_false]
          exact NRel_refl _ _

theorem vsTs_nodes (sfx : String) (ts : Elem) :
    SubRel [aixmDesignatorTag, aixmNameTag] ((vsTs sfx ts).nodes) ts.nodes := by
  have h1 : NRel [aixmDesignatorTag, aixmNameTag]
      ((editFirstChildText aixmNameTag (appendIfTruthy sfx) ts).nodes) ts.nodes :=
    editFirstChildText_nodes aixmNameTag (appendIfTruthy sfx) (by simp) ts
  have h2 : NRel [aixmDesignatorTag, aixmNameTag]
      ((mapTag vsPartTag (vsPartEdit sfx)
        (editFirstChildText aixmNameTag (appendIfTruthy sfx) ts)).nodes)
      ((editFirstChildText aixmNameTag (appendIfTruthy sfx) ts).nodes) :=
    mapTag_nodes vsPartTag (vsPartEdit sfx) (NRel [aixmDesignatorTag, aixmNameTag])
      (NRel_refl _) (fun ha hb => NRel_append ha hb) (fun ha hb => NRel_trans ha hb)
      (fun x _ => vsPartEdit_nodes sfx x) _
  have h3 : ((vsTs sfx ts).nodes).Sublist
      ((mapTag vsPartTag (vsPartEdit sfx)
        (editFirstChildText aixmNameTag (appendIfTruthy sfx) ts)).nodes) :=
    removeProps_nodes _
  exact SubRel_trans ⟨_, NRel_refl _ _, h3⟩
    (SubRel_trans (SubRel_of_NRel h2) (SubRel_of_NRel h1))

/-! ### Commutation of first-match search with first-match replacement -/

mutual

/-- When `f` preserves root tags, searching after replacing finds the
image of what searching found. -/
theorem findFirstIncl_mapFirstIncl (p : String → Bool) (f : Elem → Elem)
    (htag : ∀ x : Elem, (f x).tag = x.tag) :
    ∀ e : Elem, findFirstIncl p (mapFirstIncl p f e) = (findFirstIncl p e).map f
  | .mk t a x cs => by
    by_cases hp : p t
    · have hfind : findFirstIncl p (f (Elem.mk t a x cs)) = some (f (Elem.mk t a x cs)) := by
        cases hfe : f (Elem.mk t a x cs) with
        | mk t2 a2 x2 cs2 =>
          have ht2 : t2 = t := by
            have := htag (Elem.mk t a x cs)
            rw [hfe] at this
            exact this
          simp only [findFirstIncl, ht2, hp, if_true]
      simp only [mapFirstIncl, hp, if_true, hfind, findFirstIncl, Option.map_some']
    · simp only [mapFirstIncl, hp, Bool.false_eq_true, if_false, findFirstIncl]
      exact findFirstL_mapFirstL p f htag cs

theorem findFirstL_mapFirstL (p : String → Bool) (f : Elem → Elem)
    (htag : ∀ x : Elem, (f x).tag = x.tag) :
    ∀ l : ElemList, findFirstL p (mapFirstL p f l) = (findFirstL p l).map f
  | .nil => rfl
  | .cons e l => by
    cases hfe : findFirstIncl p e with
    | some r =>
      simp only [mapFirstL, hfe, findFirstL]
      rw [findFirstIncl_mapFirstIncl p f htag e, hfe]
      rfl
    | none =>
      simp only [mapFirstL, hfe, findFirstL]
      exact findFirstL_mapFirstL p f htag l

end

theorem findFirstDesc_mapFirstDesc (p : String → Bool) (f : Elem → Elem)
    (htag : ∀ x : Elem, (f x).tag = x.tag) (e : Elem) :
    findFirstDesc p (mapFirstDesc p f e) = (findFirstDesc p e).map f := by
  cases e with
  | mk t a x cs =>
    simp only [mapFirstDesc, findFirstDesc, Elem.children]
    exact findFirstL_mapFirstL p f htag cs

/-! ### Root tags of the relabeling transforms -/

theorem textEdit_tag (g : Option String → Option String) (x : Elem) :
    (textEdit g x).tag = x.tag := by
  cases x; rfl

theorem editFirstChild_tag (t0 : String) (f : Elem → Elem) (x : Elem) :
    (editFirstChild t0 f x).tag = x.tag := by
  cases x; rfl

theorem editFirstChildText_tag (t0 : String) (g : Option String → Option String) (x : Elem) :
    (editFirstChildText t0 g x).tag = x.tag :=
  editFirstChild_tag t0 (textEdit g) x

theorem suffixTs_tag (sfx : String) (x : Elem) : (suffixTs sfx x).tag = x.tag := by
  unfold suffixTs
  rw [editFirstChildText_tag, editFirstChildText_tag]

theorem ahpTs_tag (index : Nat) (x : Elem) : (ahpTs index x).tag = x.tag := by
  unfold ahpTs
  rw [editFirstChildText_tag, editFirstChildText_tag]

theorem removeProps_tag (x : Elem) : (removeProps x).tag = x.tag := by
  cases x; rfl

theorem mapTag_tag (t0 : String) (f : Elem → Elem) (hf : ∀ x : Elem, (f x).tag = x.tag)
    (e : Elem) : (mapTag t0 f e).tag = e.tag := by
  cases e with
  | mk t a x cs =>
    simp only [mapTag]
    by_cases hp : t = t0
    · simp only [hp, if_true]
      rw [hf]
      rfl
    · simp [hp, Elem.tag]

theorem vsPartEdit_tag (sfx : String) (x : Elem) : (vsPartEdit sfx x).tag = x.tag :=
  editFirstChild_tag _ _ x

theorem vsTs_tag (sfx : String) (x : Elem) : (vsTs sfx x).tag = x.tag := by
  unfold vsTs
  rw [removeProps_tag, mapTag_tag _ _ (vsPartEdit_tag sfx), editFirstChildText_tag]

theorem tsRelabel_tag (idb : String) (x : Elem) : (tsRelabel idb x).tag = x.tag := by
  cases x; rfl

/-! ### `findChild` through the child edits -/

theorem findChildL_editFirstChildL_eq (t0 : String) (f : Elem → Elem)
    (htag : ∀ x : Elem, (f x).tag = x.tag) :
    ∀ l : ElemList, findChildL (editFirstChildL t0 f l) t0 = (findChildL l t0).map f
  | .nil => rfl
  | .cons c rest => by
    by_cases hc : c.tag = t0
    · simp only [editFirstChildL, hc, if_true, findChildL, htag c, Option.map_some']
    · simp only [editFirstChildL, hc, if_false, findChildL]
      exact findChildL_editFirstChildL_eq t0 f htag rest

theorem findChildL_editFirstChildL_ne (t0 t1 : String) (hne : t1 ≠ t0) (f : Elem → Elem)
    (htag : ∀ x : Elem, (f x).tag = x.tag) :
    ∀ l : ElemList, findChildL (editFirstChildL t0 f l) t1 = findChildL l t1
  | .nil => rfl
  | .cons c rest => by
    by_cases hc : c.tag = t0
    · have hedit : editFirstChildL t0 f (.cons c rest) = .cons (f c) rest := by
        simp [editFirstChildL, hc]
      have hft1 : ¬ (f c).tag = t1 := by
        rw [htag c, hc]
        exact fun hh => hne hh.symm
      have hct1 : ¬ c.tag = t1 := by
        rw [hc]
        exact fun hh => hne hh.symm
      rw [hedit]
      simp only [findChildL, hft1, hct1, if_false]
    · simp only [editFirstChildL, hc, if_false, findChildL]
      by_cases hc1 : c.tag = t1
      · simp [hc1]
      · simp only [hc1, if_false]
        exact findChildL_editFirstChildL_ne t0 t1 hne f htag rest

theorem findChild_editFirstChild_eq (t0 : String) (f : Elem → Elem)
    (htag : ∀ x : Elem, (f x).tag = x.tag) (e : Elem) :
    findChild (editFirstChild t0 f e) t0 = (findChild e t0).map f := by
  cases e with
  | mk t a x cs => exact findChildL_editFirstChildL_eq t0 f htag cs

theorem findChild_editFirstChild_ne (t0 t1 : String) (hne : t1 ≠ t0) (f : Elem → Elem)
    (htag : ∀ x : Elem, (f x).tag = x.tag) (e : Elem) :
    findChild (editFirstChild t0 f e) t1 = findChild e t1 := by
  cases e with
  | mk t a x cs => exact findChildL_editFirstChildL_ne t0 t1 hne f htag cs

/-! ### The relabeling branch stage, as node relations -/

theorem branch1_nodes (index : Nat) (feat_type : String) (e3 : Elem) :
    NRel [aixmDesignatorTag, aixmNameTag] ((branch1 index feat_type e3).nodes) e3.nodes := by
  unfold branch1
  split
  · exact mapFirstIncl_nodes _ _ _ (NRel_refl _)
      (fun ha hb => NRel_append ha hb) (fun x => ahpTs_nodes index x) e3
  · exact NRel_refl _ _

theorem branch2_nodes (index : Nat) (feat_type : String) (e4 : Elem) :
    NRel [aixmDesignatorTag, aixmNameTag] ((branch2 index feat_type e4).nodes) e4.nodes := by
  unfold branch2
  split
  · exact mapFirstDesc_nodes _ _ _ (NRel_refl _)
      (fun ha hb => NRel_append ha hb) (fun x => suffixTs_nodes _ x) _
  · exact NRel_refl _ _

theorem branch3_nodes (index : Nat) (feat_type : String) (e5 : Elem) :
    SubRel [aixmDesignatorTag, aixmNameTag] ((branch3 index feat_type e5).nodes) e5.nodes := by
  unfold branch3
  split
  · exact mapFirstDesc_nodes _ _ (SubRel [aixmDesignatorTag, aixmNameTag])
      (SubRel_refl _) (fun ha hb => SubRel_append ha hb) (fun x => vsTs_nodes _ x) _
  · exact SubRel_refl _ _

theorem branch4_nodes (index : Nat) (feat_type : String) (e6 : Elem) :
    NRel [aixmDesignatorTag, aixmNameTag] ((branch4 index feat_type e6).nodes) e6.nodes := by
  unfold branch4
  split
  · exact mapFirstDesc_nodes _ _ _ (NRel_refl _)
      (fun ha hb => NRel_append ha hb) (fun x => suffixTs_nodes _ x) _
  · exact NRel_refl _ _

/-- For every type, the relabeling branches only edit designator/name
texts and (for obstacles) remove properties. -/
theorem branchStage_nodes (index : Nat) (feat_type : String) (e3 : Elem) :
    SubRel [aixmDesignatorTag, aixmNameTag] ((branchStage index feat_type e3).nodes) e3.nodes := by
  unfold branchStage
  exact SubRel_trans (SubRel_of_NRel (branch4_nodes index feat_type _))
    (SubRel_trans (branch3_nodes index feat_type _)
      (SubRel_trans (SubRel_of_NRel (branch2_nodes index feat_type _))
        (SubRel_of_NRel (branch1_nodes index feat_type e3))))

/-- Away from the obstacle type no nodes are removed. -/
theorem branchStage_nodes_nonVS (index : Nat) (feat_type : String)
    (hvs : feat_type ≠ "VerticalStructure") (e3 : Elem) :
    NRel [aixmDesignatorTag, aixmNameTag] ((branchStage index feat_type e3).nodes) e3.nodes := by
  unfold branchStage
  have h3 : ∀ x : Elem, branch3 index feat_type x = x := by
    intro x
    unfold branch3
    rw [if_neg hvs]
  rw [h3]
  exact NRel_trans (branch4_nodes index feat_type _)
    (NRel_trans (branch2_nodes index feat_type _) (branch1_nodes index feat_type e3))

/-- At the obstacle type the branch stage is exactly the obstacle edit. -/
theorem branchStage_VS (index : Nat) (e3 : Elem) :
    branchStage index "VerticalStructure" e3 =
      mapFirstDesc isTsTag (vsTs (copySuffix index)) e3 := by
  unfold branchStage branch1 branch2 branch3 branch4
  rw [if_neg (show ¬ ("VerticalStructure" = "AirportHeliport") from by decide),
    if_neg (show ¬ (navaid_types.contains "VerticalStructure" = true) from by decide),
    if_pos (show "VerticalStructure" = "VerticalStructure" from rfl),
    if_neg (show ¬ ("VerticalStructure" = "Airspace") from by decide)]

/-- At the anchor type the branch stage is exactly the anchor edit. -/
theorem branchStage_AHP (index : Nat) (e3 : Elem) :
    branchStage index "AirportHeliport" e3 = mapFirstIncl isAhpTsTag (ahpTs index) e3 := by
  unfold branchStage branch1 branch2 branch3 branch4
  rw [if_pos (show "AirportHeliport" = "AirportHeliport" from rfl),
    if_neg (show ¬ (navaid_types.contains "AirportHeliport" = true) from by decide),
    if_neg (show ¬ ("AirportHeliport" = "VerticalStructure") from by decide),
    if_neg (show ¬ ("AirportHeliport" = "Airspace") from by decide)]

/-! ### The cloning loop -/

theorem cloneRecords_forall₂ (uuid_map : List (String × String)) (index : Nat)
    (latO lonO latN lonN : ℚ) (navSet : List String) :
    ∀ {c : List Triple} {r : List (String × Elem)},
      cloneRecords uuid_map index latO lonO latN lonN navSet c = some r →
      List.Forall₂ (fun (rec : Triple) (tc : String × Elem) =>
        tc.1 = rec.2.1 ∧
        cloneOne uuid_map index latO lonO latN lonN navSet rec.1 rec.2.1 rec.2.2 = some tc.2)
        c r := by
  intro c
  induction c with
  | nil =>
    intro r h
    cases h
    exact List.Forall₂.nil
  | cons rec rest ih =>
    intro r h
    rcases rec with ⟨u, t, e⟩
    unfold cloneRecords at h
    cases hco : cloneOne uuid_map index latO lonO latN lonN navSet u t e with
    | none => rw [hco] at h; cases h
    | some ce =>
      rw [hco] at h
      cases hcr : cloneRecords uuid_map index latO lonO latN lonN navSet rest with
      | none => rw [hcr] at h; cases h
      | some cr =>
        rw [hcr] at h
        cases h
        exact List.Forall₂.cons ⟨rfl, hco⟩ (ih hcr)

/-- Inversion for `clone_feature_set`. -/
theorem clone_feature_set_inv {collected : List Triple} {index grid_cols : Nat}
    {distance_nm : ℚ} {nav : List String} {gen : Nat → String}
    {p : List (String × Elem) × String}
    (h : clone_feature_set collected index grid_cols distance_nm nav gen = some p) :
    cloneRecords (uuidMapOf gen 0 collected) index
        (calculate_grid_offset index grid_cols distance_nm).1
        (calculate_grid_offset index grid_cols distance_nm).2
        (calculate_grid_offset index grid_cols (distance_nm / 10)).1
        (calculate_grid_offset index grid_cols (distance_nm / 10)).2
        nav collected = some p.1
    ∧ lookupA (uuidMapOf gen 0 collected) EADD_UUID = some p.2 := by
  unfold clone_feature_set at h
  cases hcr : cloneRecords (uuidMapOf gen 0 collected) index
      (calculate_grid_offset index grid_cols distance_nm).1
      (calculate_grid_offset index grid_cols distance_nm).2
      (calculate_grid_offset index grid_cols (distance_nm / 10)).1
      (calculate_grid_offset index grid_cols (distance_nm / 10)).2
      nav collected with
  | none => rw [hcr] at h; exact Option.noConfusion h
  | some cloned =>
    rw [hcr] at h
    cases hlk : lookupA (uuidMapOf gen 0 collected) EADD_UUID with
    | none => rw [hlk] at h; exact Option.noConfusion h
    | some a =>
      rw [hlk] at h
      cases h
      exact ⟨rfl, rfl⟩

/-- Inversion for `cloneOne`. -/
theorem cloneOne_inv {uuid_map : List (String × String)} {index : Nat}
    {latO lonO latN lonN : ℚ} {navSet : List String} {u t : String} {e ce : Elem}
    (h : cloneOne uuid_map index latO lonO latN lonN navSet u t e = some ce) :
    ∃ new_uuid e1, lookupA uuid_map u = some new_uuid ∧
      update_feature_ids e new_uuid = some e1 ∧
      ce = cloneStages uuid_map index latO lonO latN lonN navSet u t e1 := by
  unfold cloneOne at h
  split at h
  · exact Option.noConfusion h
  · rename_i new_uuid hlk
    split at h
    · exact Option.noConfusion h
    · rename_i e1 hupd
      cases h
      exact ⟨new_uuid, e1, hlk, hupd, rfl⟩

/-- C8: a successful `clone_feature_set` returns exactly one cloned
record per collected identifier. -/
theorem claim_C8 (collected : List Triple) (index grid_cols : Nat) (distance_nm : ℚ)
    (nav : List String) (gen : Nat → String) (p : List (String × Elem) × String)
    (h : clone_feature_set collected index grid_cols distance_nm nav gen = some p) :
    p.1.length = collected.length :=
  ((cloneRecords_forall₂ _ _ _ _ _ _ _ (clone_feature_set_inv h).1).length_eq).symm

/-- Witness for C8 on a one-record collected set. -/
theorem claim_C8_witness : pW8.1.length = cW8.length :=
  claim_C8 cW8 0 6 30 [] genW pW8 rfl

/-! ### Lemmas for C9: the search for the time-slice is unaffected by
the preliminary identifier edits -/

theorem findFirstIncl_textEdit (p : String → Bool) (g : Option String → Option String)
    (c : Elem) (hp : p c.tag = false) :
    findFirstIncl p (textEdit g c) = findFirstIncl p c := by
  cases c with
  | mk tc ac xc csc =>
    simp only [Elem.tag] at hp
    simp only [textEdit, findFirstIncl, hp, Bool.false_eq_true, if_false]

theorem findFirstL_editFirstChildText (p : String → Bool) (t0 : String)
    (g : Option String → Option String) (hp : p t0 = false) :
    ∀ l : ElemList, findFirstL p (editFirstChildL t0 (textEdit g) l) = findFirstL p l
  | .nil => rfl
  | .cons c rest => by
    by_cases hc : c.tag = t0
    · simp only [editFirstChildL, hc, if_true, findFirstL]
      rw [findFirstIncl_textEdit p g c (by rw [hc]; exact hp)]
    · simp only [editFirstChildL, hc, if_false, findFirstL]
      rw [findFirstL_editFirstChildText p t0 g hp rest]

theorem findFirstDesc_prepIds (e : Elem) (u : String) :
    findFirstDesc isTsTag (prepIds e u) = findFirstDesc isTsTag e := by
  cases e with
  | mk t a x cs =>
    show findFirstL isTsTag (editFirstChildL gmlIdentifierTag (textEdit _) cs) =
      findFirstL isTsTag cs
    exact findFirstL_editFirstChildText isTsTag gmlIdentifierTag _ (by decide) cs

/-- The missing-or-empty-field read yields the default. -/
theorem readNum_default {ts : Elem} {t0 : String} {dflt : Int}
    (h : findChild ts t0 = none ∨
      ∃ el, findChild ts t0 = some el ∧ (el.text = none ∨ el.text = some "")) :
    readNum ts t0 dflt = some dflt := by
  unfold readNum
  rcases h with h | ⟨el, hel, ht⟩
  · rw [h]
  · rw [hel]
    show (match el.text with
      | none => some dflt
      | some s => if s = "" then some dflt else intOfStr? s) = some dflt
    rcases ht with ht | ht
    · rw [ht]
    · rw [ht]
      show (if ("" : String) = "" then some dflt else intOfStr? "") = some dflt
      simp

theorem tsRelabel_gmlid (idb : String) (ts : Elem) :
    getAttr (tsRelabel idb ts) GML_ID = some idb := by
  cases ts with
  | mk t a x cs =>
    simp only [tsRelabel, getAttr, Elem.attrs]
    exact lookupA_setA_self a GML_ID idb

/-- C9: when the active version-block lacks a sequence-number sub-field
(or its text is empty) and likewise for the correction number,
`update_feature_ids` succeeds using the defaults 1 and 0, and the
version-block identifier it writes is `id_<uuid>_1_0_B`. -/
theorem claim_C9 (e : Elem) (u : String) (ts : Elem)
    (hts : findFirstDesc isTsTag e = some ts)
    (hseq : findChild ts aixmSequenceTag = none ∨
      ∃ el, findChild ts aixmSequenceTag = some el ∧ (el.text = none ∨ el.text = some ""))
    (hcorr : findChild ts aixmCorrectionTag = none ∨
      ∃ el, findChild ts aixmCorrectionTag = some el ∧ (el.text = none ∨ el.text = some "")) :
    update_feature_ids e u =
      some (mapFirstDesc isTsTag (tsRelabel (idBase u 1 0)) (prepIds e u))
    ∧ (update_feature_ids e u).bind (fun e1 =>
        (findFirstDesc isTsTag e1).bind (fun ts1 => getAttr ts1 GML_ID)) =
      some (idBase u 1 0)
    ∧ idBase u 1 0 = "id_" ++ u ++ "_1_0_B" := by
  have hts2 : findFirstDesc isTsTag (prepIds e u) = some ts := by
    rw [findFirstDesc_prepIds]
    exact hts
  have h1 : update_feature_ids e u =
      some (mapFirstDesc isTsTag (tsRelabel (idBase u 1 0)) (prepIds e u)) := by
    unfold update_feature_ids
    rw [hts2]
    show (match readNum ts aixmSequenceTag 1, readNum ts aixmCorrectionTag 0 with
      | some seq, some corr =>
        some (mapFirstDesc isTsTag (tsRelabel (idBase u seq corr)) (prepIds e u))
      | _, _ => none) = _
    rw [readNum_default hseq, readNum_default hcorr]
  refine ⟨h1, ?_, ?_⟩
  · rw [h1]
    show (findFirstDesc isTsTag (mapFirstDesc isTsTag (tsRelabel (idBase u 1 0))
      (prepIds e u))).bind (fun ts1 => getAttr ts1 GML_ID) = some (idBase u 1 0)
    rw [findFirstDesc_mapFirstDesc isTsTag _ (tsRelabel_tag (idBase u 1 0)), hts2]
    show getAttr (tsRelabel (idBase u 1 0) ts) GML_ID = some (idBase u 1 0)
    exact tsRelabel_gmlid _ ts
  · show "id_" ++ u ++ "_" ++ toString (1 : Int) ++ "_" ++ toString (0 : Int) ++ "_B" =
      "id_" ++ u ++ "_1_0_B"
    simp only [String.append_assoc]
    rfl

/-- Witness for C9 on a record whose time-slice has no sequence or
correction sub-fields at all. -/
theorem claim_C9_witness :
    update_feature_ids eC9 "u1" =
      some (mapFirstDesc isTsTag (tsRelabel (idBase "u1" 1 0)) (prepIds eC9 "u1"))
    ∧ (update_feature_ids eC9 "u1").bind (fun e1 =>
        (findFirstDesc isTsTag e1).bind (fun ts1 => getAttr ts1 GML_ID)) =
      some (idBase "u1" 1 0)
    ∧ idBase "u1" 1 0 = "id_" ++ "u1" ++ "_1_0_B" :=
  claim_C9 eC9 "u1" tsC9 rfl (Or.inl rfl) (Or.inl rfl)

/-! ### Lemmas for C6: removed properties are absent -/

theorem findChildL_removePropsL (tag : String) (htag : tag ∈ vsPropTags) :
    ∀ l : ElemList, findChildL (removePropsL l) tag = none
  | .nil => rfl
  | .cons c rest => by
    by_cases hc : c.tag ∈ vsPropTags
    · simp only [removePropsL, hc, if_true]
      exact findChildL_removePropsL tag htag rest
    · simp only [removePropsL, hc, if_false, findChildL]
      have hne : ¬ c.tag = tag := fun he => hc (he ▸ htag)
      rw [if_neg hne]
      exact findChildL_removePropsL tag htag rest

theorem removeProps_findChild (x : Elem) (tag : String) (htag : tag ∈ vsPropTags) :
    findChild (removeProps x) tag = none := by
  cases x with
  | mk t a xt cs => exact findChildL_removePropsL tag htag cs

theorem vsTs_findChild_prop (sfx : String) (ts : Elem) (tag : String)
    (htag : tag ∈ vsPropTags) : findChild (vsTs sfx ts) tag = none := by
  unfold vsTs
  exact removeProps_findChild _ tag htag

/-- C6: in every cloned structural-obstacle record, none of the six
listed relationship properties remains a child of the active
version-block.  (The embedding is purely functional: the clone is built
from a copy, so the original elements in `collected` are untouched by
construction, mirroring the Python deep copy.) -/
theorem claim_C6 (collected : List Triple) (index grid_cols : Nat) (distance_nm : ℚ)
    (nav : List String) (gen : Nat → String) (p : List (String × Elem) × String)
    (h : clone_feature_set collected index grid_cols distance_nm nav gen = some p)
    (tc : String × Elem) (htc : tc ∈ p.1) (hvs : tc.1 = "VerticalStructure")
    (ts : Elem) (hts : findFirstDesc isTsTag tc.2 = some ts)
    (pr : String) (hpr : pr ∈ VS_PROPERTIES_TO_REMOVE) :
    findChild ts (aixmTag pr) = none := by
  have hf := cloneRecords_forall₂ _ _ _ _ _ _ _ (clone_feature_set_inv h).1
  obtain ⟨rec, _hrec, htype, hco⟩ := forall₂_mem_right hf htc
  obtain ⟨newU, e1, _hlk, _hupd, hce⟩ := cloneOne_inv hco
  have hrt : rec.2.1 = "VerticalStructure" := htype ▸ hvs
  rw [hce] at hts
  unfold cloneStages at hts
  rw [hrt, branchStage_VS] at hts
  rw [findFirstDesc_mapFirstDesc isTsTag _ (vsTs_tag (copySuffix index))] at hts
  rcases Option.map_eq_some'.mp hts with ⟨ts0, _hts0, rfl⟩
  refine vsTs_findChild_prop _ ts0 (aixmTag pr) ?_
  exact List.mem_map.mpr ⟨pr, hpr, rfl⟩

/-- Witness for C6: the cloned obstacle's time-slice no longer carries
the `hostedUnit` property present in the original. -/
theorem claim_C6_witness : findChild tsW6out (aixmTag "hostedUnit") = none :=
  claim_C6 cW6 0 6 30 [] genW pW6 rfl ("VerticalStructure", ceW6)
    (List.mem_cons_self _ _) rfl tsW6out rfl "hostedUnit" (by decide)

/-! ### Lemmas for C7: the anchor relabeling -/

theorem textEdit_text (g : Option String → Option String) (d : Elem) :
    (textEdit g d).text = g d.text := by
  cases d; rfl

/-- What the anchor edit leaves readable under the designator getter. -/
theorem ahpTs_designator (index : Nat) (ts0 : Elem) :
    (findChild (ahpTs index ts0) aixmDesignatorTag).bind Elem.text =
      (findChild ts0 aixmDesignatorTag).map (fun _ => anchorDesignator index) := by
  unfold ahpTs editFirstChildText
  rw [findChild_editFirstChild_ne aixmNameTag aixmDesignatorTag (by decide) _
    (fun x => textEdit_tag _ x)]
  rw [findChild_editFirstChild_eq aixmDesignatorTag _ (fun x => textEdit_tag _ x)]
  cases findChild ts0 aixmDesignatorTag with
  | none => rfl
  | some d =>
    simp only [Option.map_some', Option.some_bind]
    rw [textEdit_text]

theorem ahpTs_name (index : Nat) (ts0 : Elem) :
    (findChild (ahpTs index ts0) aixmNameTag).bind Elem.text =
      (findChild ts0 aixmNameTag).map (fun _ => anchorName index) := by
  unfold ahpTs editFirstChildText
  rw [findChild_editFirstChild_eq aixmNameTag _ (fun x => textEdit_tag _ x)]
  rw [findChild_editFirstChild_ne aixmDesignatorTag aixmNameTag (by decide) _
    (fun x => textEdit_tag _ x)]
  cases findChild ts0 aixmNameTag with
  | none => rfl
  | some d =>
    simp only [Option.map_some', Option.some_bind]
    rw [textEdit_text]

/-- C7: in every cloned anchor record, any designator visible in the
first `AirportHeliportTimeSlice` equals the generated `E<index+1>D`
code, and any name equals the generated `DONLON INTL. <index+1>`; the
generation is zero-padded, so index 0 gives `E01D` and index 9 gives
`E10D`. -/
theorem claim_C7 (collected : List Triple) (index grid_cols : Nat) (distance_nm : ℚ)
    (nav : List String) (gen : Nat → String) (p : List (String × Elem) × String)
    (h : clone_feature_set collected index grid_cols distance_nm nav gen = some p)
    (tc : String × Elem) (htc : tc ∈ p.1) (hahp : tc.1 = "AirportHeliport") :
    (∀ s, anchorDesigOf tc.2 = some s → s = anchorDesignator index)
    ∧ (∀ s, anchorNameOf tc.2 = some s → s = anchorName index)
    ∧ anchorDesignator 0 = "E01D" ∧ anchorDesignator 9 = "E10D" := by
  have hf := cloneRecords_forall₂ _ _ _ _ _ _ _ (clone_feature_set_inv h).1
  obtain ⟨rec, _hrec, htype, hco⟩ := forall₂_mem_right hf htc
  obtain ⟨newU, e1, _hlk, _hupd, hce⟩ := cloneOne_inv hco
  have hrt : rec.2.1 = "AirportHeliport" := htype ▸ hahp
  have hstage : tc.2 = mapFirstIncl isAhpTsTag (ahpTs index)
      (offsetStage (calculate_grid_offset index grid_cols distance_nm).1
        (calculate_grid_offset index grid_cols distance_nm).2
        (calculate_grid_offset index grid_cols (distance_nm / 10)).1
        (calculate_grid_offset index grid_cols (distance_nm / 10)).2
        nav rec.1 rec.2.1 (update_xlink_refs e1 (uuidMapOf gen 0 collected))) := by
    rw [hce]
    unfold cloneStages
    rw [hrt, branchStage_AHP]
  refine ⟨?_, ?_, by decide, by decide⟩
  · intro s hs
    unfold anchorDesigOf at hs
    rw [hstage, findFirstIncl_mapFirstIncl isAhpTsTag _ (fun x => ahpTs_tag index x)] at hs
    cases hfi : findFirstIncl isAhpTsTag (offsetStage _ _ _ _ nav rec.1 rec.2.1
        (update_xlink_refs e1 (uuidMapOf gen 0 collected))) with
    | none => rw [hfi] at hs; cases hs
    | some ts0 =>
      rw [hfi] at hs
      simp only [Option.map_some', Option.some_bind] at hs
      rw [ahpTs_designator index ts0] at hs
      cases hfc : findChild ts0 aixmDesignatorTag with
      | none => rw [hfc] at hs; cases hs
      | some d =>
        rw [hfc] at hs
        simp only [Option.map_some', Option.some.injEq] at hs
        exact hs.symm
  · intro s hs
    unfold anchorNameOf at hs
    rw [hstage, findFirstIncl_mapFirstIncl isAhpTsTag _ (fun x => ahpTs_tag index x)] at hs
    cases hfi : findFirstIncl isAhpTsTag (offsetStage _ _ _ _ nav rec.1 rec.2.1
        (update_xlink_refs e1 (uuidMapOf gen 0 collected))) with
    | none => rw [hfi] at hs; cases hs
    | some ts0 =>
      rw [hfi] at hs
      simp only [Option.map_some', Option.some_bind] at hs
      rw [ahpTs_name index ts0] at hs
      cases hfc : findChild ts0 aixmNameTag with
      | none => rw [hfc] at hs; cases hs
      | some d =>
        rw [hfc] at hs
        simp only [Option.map_some', Option.some.injEq] at hs
        exact hs.symm

/-- Witness for C7 on a concrete anchor clone at index 0. -/
theorem claim_C7_witness :
    "E01D" = anchorDesignator 0 ∧ "DONLON INTL. 01" = anchorName 0 :=
  ⟨(claim_C7 cW7 0 6 30 [] genW pW7 rfl ("AirportHeliport", ceW7)
      (List.mem_cons_self _ _) rfl).1 "E01D" rfl,
   (claim_C7 cW7 0 6 30 [] genW pW7 rfl ("AirportHeliport", ceW7)
      (List.mem_cons_self _ _) rfl).2.1 "DONLON INTL. 01" rfl⟩

/-! ### Lemmas for C1: the identifier space of a clone -/

theorem uuidMapOf_lookup_isSome (gen : Nat → String) :
    ∀ (c : List Triple) (n : Nat) (k : String), k ∈ keysOf c →
      (lookupA (uuidMapOf gen n c) k).isSome = true
  | [], _, _, hk => absurd hk (by simp [keysOf])
  | r :: rest, n, k, hk => by
    simp only [uuidMapOf, lookupA]
    by_cases hr : r.1 = k
    · simp [hr]
    · simp only [hr, if_false]
      refine uuidMapOf_lookup_isSome gen rest (n + 1) k ?_
      simp only [keysOf, List.map_cons, List.mem_cons] at hk
      rcases hk with hk | hk
      · exact absurd hk.symm hr
      · exact hk

theorem uuidMapOf_vals (gen : Nat → String) :
    ∀ (c : List Triple) (n : Nat) (v : String), v ∈ valsA (uuidMapOf gen n c) →
      ∃ j, v = gen j
  | [], _, _, hv => absurd hv (by simp [uuidMapOf, valsA])
  | r :: rest, n, v, hv => by
    simp only [uuidMapOf, valsA, List.map_cons, List.mem_cons] at hv
    rcases hv with hv | hv
    · exact ⟨n, hv⟩
    · exact uuidMapOf_vals gen rest (n + 1) v hv

theorem hrefs_sub_of_SubRel {ex : List String} {l1 l2 : List NodeD} (h : SubRel ex l1 l2) :
    (l1.filterMap hrefOfNode).Sublist (l2.filterMap hrefOfNode) := by
  rcases h with ⟨mid, hf, hs⟩
  rw [hrefs_eq_of_NRel hf]
  exact List.Sublist.filterMap hrefOfNode hs

theorem textsBy_sub_of_SubRel {ex : List String} (t0 : String) (ht0 : ¬ t0 ∈ ex)
    {l1 l2 : List NodeD} (h : SubRel ex l1 l2) :
    (l1.filterMap (fun n => if n.tag = t0 then some n.text else none)).Sublist
      (l2.filterMap (fun n => if n.tag = t0 then some n.text else none)) := by
  rcases h with ⟨mid, hf, hs⟩
  rw [textsBy_eq_of_NRel t0 ht0 hf]
  exact List.Sublist.filterMap _ hs

theorem offsetStage_hrefs (latO lonO latN lonN : ℚ) (nav : List String)
    (u t : String) (e2 : Elem) :
    get_xlink_hrefs (offsetStage latO lonO latN lonN nav u t e2) = get_xlink_hrefs e2 := by
  unfold offsetStage
  split
  · exact hrefs_offset_all e2 latN lonN
  · exact hrefs_offset_all e2 latO lonO

/-- Per-record C1: every href UUID in a cloned record is either a value
of the instance's `uuid_map` or a non-key reference present verbatim in
the original record. -/
theorem cloneOne_hrefs {m : List (String × String)} {index : Nat}
    {latO lonO latN lonN : ℚ} {nav : List String} {u t : String} {e ce : Elem}
    (hclean : ∀ k nu, lookupA m k = some nu →
      eraseSub "urn:uuid:" ("urn:uuid:" ++ nu) = nu)
    (h : cloneOne m index latO lonO latN lonN nav u t e = some ce) :
    ∀ v ∈ get_xlink_hrefs ce,
      v ∈ valsA m ∨ (lookupA m v = none ∧ v ∈ get_xlink_hrefs e) := by
  obtain ⟨newU, e1, _hlk, hupd, hce⟩ := cloneOne_inv h
  intro v hv
  rw [hce] at hv
  unfold cloneStages at hv
  have hbranch : (get_xlink_hrefs (branchStage index t
      (offsetStage latO lonO latN lonN nav u t (update_xlink_refs e1 m)))).Sublist
        (get_xlink_hrefs (offsetStage latO lonO latN lonN nav u t
          (update_xlink_refs e1 m))) :=
    hrefs_sub_of_SubRel (branchStage_nodes index t _)
  have hv2 : v ∈ get_xlink_hrefs (update_xlink_refs e1 m) := by
    have := hbranch.mem hv
    rw [offsetStage_hrefs] at this
    exact this
  rcases update_xlink_refs_hrefs hclean v hv2 with hl | ⟨hnone, h1⟩
  · exact Or.inl hl
  · refine Or.inr ⟨hnone, ?_⟩
    rw [get_xlink_hrefs_eq_of_NRel (update_feature_ids_nodes hupd)] at h1
    exact h1

/-- C1: in a successful clone instance, every `urn:uuid:` link target of
every cloned record is either a freshly generated identifier of this
instance's map, or a non-key of the belonging set carried over verbatim
from that record's original; in particular it is never an original
belonging-set identifier and never an identifier generated for a
different clone instance.  `hclean` says the generated identifiers
survive the `urn:uuid:` prefix round-trip; `hg`, `hd` and `ho` say the
two instances' generated identifiers are fresh: not belonging-set keys,
mutually distinct, and absent from the source records' hrefs. -/
theorem claim_C1 (collected : List Triple) (index grid_cols : Nat) (distance_nm : ℚ)
    (nav : List String) (genA genB : Nat → String) (p : List (String × Elem) × String)
    (hclean : ∀ k nu, lookupA (uuidMapOf genA 0 collected) k = some nu →
      eraseSub "urn:uuid:" ("urn:uuid:" ++ nu) = nu)
    (hg : ∀ j, ¬ genA j ∈ keysOf collected)
    (hd : ∀ x ∈ valsA (uuidMapOf genB 0 collected),
      ¬ x ∈ valsA (uuidMapOf genA 0 collected))
    (ho : ∀ x ∈ valsA (uuidMapOf genB 0 collected),
      ∀ r ∈ collected, ¬ x ∈ get_xlink_hrefs r.2.2)
    (h : clone_feature_set collected index grid_cols distance_nm nav genA = some p) :
    ∀ tc ∈ p.1, ∀ v ∈ get_xlink_hrefs tc.2,
      (v ∈ valsA (uuidMapOf genA 0 collected)
        ∨ (¬ v ∈ keysOf collected ∧ ∃ r ∈ collected, v ∈ get_xlink_hrefs r.2.2))
      ∧ ¬ v ∈ keysOf collected
      ∧ ¬ v ∈ valsA (uuidMapOf genB 0 collected) := by
  intro tc htc v hv
  have hf := cloneRecords_forall₂ _ _ _ _ _ _ _ (clone_feature_set_inv h).1
  obtain ⟨rec, hrec, _htype, hco⟩ := forall₂_mem_right hf htc
  rcases cloneOne_hrefs hclean hco v hv with hl | ⟨hnone, horig⟩
  · have hkey : ¬ v ∈ keysOf collected := by
      obtain ⟨j, rfl⟩ := uuidMapOf_vals genA collected 0 v hl
      exact hg j
    exact ⟨Or.inl hl, hkey, fun hb => hd v hb hl⟩
  · have hkey : ¬ v ∈ keysOf collected := by
      intro hk
      have := uuidMapOf_lookup_isSome genA collected 0 v hk
      rw [hnone] at this
      cases this
    exact ⟨Or.inr ⟨hkey, rec, hrec, horig⟩, hkey, fun hb => ho v hb rec hrec horig⟩

/-- Witness for C1: the internal reference is re-pointed at this
instance's generated identifier; the external reference survives. -/
theorem claim_C1_witness :
    ("GA" ∈ valsA (uuidMapOf genWA 0 cW1)
      ∨ (¬ "GA" ∈ keysOf cW1 ∧ ∃ r ∈ cW1, "GA" ∈ get_xlink_hrefs r.2.2))
    ∧ ¬ "GA" ∈ keysOf cW1
    ∧ ¬ "GA" ∈ valsA (uuidMapOf genWB 0 cW1) := by
  refine claim_C1 cW1 0 6 30 [] genWA genWB pW1 ?_ ?_ ?_ ?_ rfl
    ("Runway", ceW1) (List.mem_cons_self _ _) "GA" (by decide)
  · intro k nu hk
    have hm : uuidMapOf genWA 0 cW1 = [(EADD_UUID, "GA")] := rfl
    rw [hm] at hk
    unfold lookupA at hk
    split at hk
    · cases hk
      decide
    · cases hk
  · intro j
    show ¬ "GA" ∈ keysOf cW1
    decide
  · decide
  · decide

/-! ### Lemmas for C4: which offset each record is shifted by -/

theorem posTexts_eq_of_NRel {ex : List String} (ht0 : ¬ gmlPosTag ∈ ex)
    {e1 e2 : Elem} (h : NRel ex e1.nodes e2.nodes) : posTexts e1 = posTexts e2 :=
  textsBy_eq_of_NRel gmlPosTag ht0 h

theorem posListTexts_eq_of_NRel {ex : List String} (ht0 : ¬ gmlPosListTag ∈ ex)
    {e1 e2 : Elem} (h : NRel ex e1.nodes e2.nodes) : posListTexts e1 = posListTexts e2 :=
  textsBy_eq_of_NRel gmlPosListTag ht0 h

theorem posTexts_sub_of_SubRel {ex : List String} (ht0 : ¬ gmlPosTag ∈ ex)
    {e1 e2 : Elem} (h : SubRel ex e1.nodes e2.nodes) :
    (posTexts e1).Sublist (posTexts e2) :=
  textsBy_sub_of_SubRel gmlPosTag ht0 h

theorem posListTexts_sub_of_SubRel {ex : List String} (ht0 : ¬ gmlPosListTag ∈ ex)
    {e1 e2 : Elem} (h : SubRel ex e1.nodes e2.nodes) :
    (posListTexts e1).Sublist (posListTexts e2) :=
  textsBy_sub_of_SubRel gmlPosListTag ht0 h

/-- Per-record C4: the clone's coordinates are the original's shifted by
the reduced offset exactly under the navaid-and-not-relevant condition,
by the full offset otherwise. -/
theorem cloneOne_offsets {m : List (String × String)} {index : Nat}
    {latO lonO latN lonN : ℚ} {nav : List String} {u t : String} {e ce : Elem}
    (h : cloneOne m index latO lonO latN lonN nav u t e = some ce) :
    (posTexts ce).Sublist ((posTexts e).map (guardedText (fun s =>
      offset_coordinate s (if navaid_types.contains t ∧ ¬ u ∈ nav then latN else latO)
        (if navaid_types.contains t ∧ ¬ u ∈ nav then lonN else lonO))))
    ∧ (posListTexts ce).Sublist ((posListTexts e).map (guardedText (fun s =>
      offset_pos_list s (if navaid_types.contains t ∧ ¬ u ∈ nav then latN else latO)
        (if navaid_types.contains t ∧ ¬ u ∈ nav then lonN else lonO) 200)))
    ∧ (t ≠ "VerticalStructure" →
        posTexts ce = (posTexts e).map (guardedText (fun s =>
          offset_coordinate s (if navaid_types.contains t ∧ ¬ u ∈ nav then latN else latO)
            (if navaid_types.contains t ∧ ¬ u ∈ nav then lonN else lonO)))
        ∧ posListTexts ce = (posListTexts e).map (guardedText (fun s =>
          offset_pos_list s (if navaid_types.contains t ∧ ¬ u ∈ nav then latN else latO)
            (if navaid_types.contains t ∧ ¬ u ∈ nav then lonN else lonO) 200))) := by
  obtain ⟨newU, e1, _hlk, hupd, hce⟩ := cloneOne_inv h
  subst hce
  unfold cloneStages
  have hpos1 : posTexts (update_xlink_refs e1 m) = posTexts e := by
    unfold posTexts
    rw [textsBy_update_xlink_refs]
    exact textsBy_eq_of_NRel' gmlPosTag (by decide) (update_feature_ids_nodes hupd)
  have hpl1 : posListTexts (update_xlink_refs e1 m) = posListTexts e := by
    unfold posListTexts
    rw [textsBy_update_xlink_refs]
    exact textsBy_eq_of_NRel' gmlPosListTag (by decide) (update_feature_ids_nodes hupd)
  by_cases hcond : navaid_types.contains t ∧ ¬ u ∈ nav
  · have ho : offsetStage latO lonO latN lonN nav u t (update_xlink_refs e1 m) =
        offset_all_coordinates (update_xlink_refs e1 m) latN lonN := by
      unfold offsetStage
      rw [if_pos hcond]
    rw [ho]
    simp only [if_pos hcond]
    have h3 : posTexts (offset_all_coordinates (update_xlink_refs e1 m) latN lonN) =
        (posTexts e).map (guardedText (fun s => offset_coordinate s latN lonN)) := by
      rw [posTexts_offset_all, hpos1]
    have h3l : posListTexts (offset_all_coordinates (update_xlink_refs e1 m) latN lonN) =
        (posListTexts e).map (guardedText (fun s => offset_pos_list s latN lonN 200)) := by
      rw [posListTexts_offset_all, hpl1]
    refine ⟨?_, ?_, ?_⟩
    · have hsub := posTexts_sub_of_SubRel (by decide) (branchStage_nodes index t
        (offset_all_coordinates (update_xlink_refs e1 m) latN lonN))
      rw [h3] at hsub
      exact hsub
    · have hsub := posListTexts_sub_of_SubRel (by decide) (branchStage_nodes index t
        (offset_all_coordinates (update_xlink_refs e1 m) latN lonN))
      rw [h3l] at hsub
      exact hsub
    · intro hvs
      have heq := posTexts_eq_of_NRel (by decide) (branchStage_nodes_nonVS index t hvs
        (offset_all_coordinates (update_xlink_refs e1 m) latN lonN))
      have heql := posListTexts_eq_of_NRel (by decide) (branchStage_nodes_nonVS index t hvs
        (offset_all_coordinates (update_xlink_refs e1 m) latN lonN))
      rw [h3] at heq
      rw [h3l] at heql
      exact ⟨heq, heql⟩
  · have ho : offsetStage latO lonO latN lonN nav u t (update_xlink_refs e1 m) =
        offset_all_coordinates (update_xlink_refs e1 m) latO lonO := by
      unfold offsetStage
      rw [if_neg hcond]
    rw [ho]
    simp only [if_neg hcond]
    have h3 : posTexts (offset_all_coordinates (update_xlink_refs e1 m) latO lonO) =
        (posTexts e).map (guardedText (fun s => offset_coordinate s latO lonO)) := by
      rw [posTexts_offset_all, hpos1]
    have h3l : posListTexts (offset_all_coordinates (update_xlink_refs e1 m) latO lonO) =
        (posListTexts e).map (guardedText (fun s => offset_pos_list s latO lonO 200)) := by
      rw [posListTexts_offset_all, hpl1]
    refine ⟨?_, ?_, ?_⟩
    · have hsub := posTexts_sub_of_SubRel (by decide) (branchStage_nodes index t
        (offset_all_coordinates (update_xlink_refs e1 m) latO lonO))
      rw [h3] at hsub
      exact hsub
    · have hsub := posListTexts_sub_of_SubRel (by decide) (branchStage_nodes index t
        (offset_all_coordinates (update_xlink_refs e1 m) latO lonO))
      rw [h3l] at hsub
      exact hsub
    · intro hvs
      have heq := posTexts_eq_of_NRel (by decide) (branchStage_nodes_nonVS index t hvs
        (offset_all_coordinates (update_xlink_refs e1 m) latO lonO))
      have heql := posListTexts_eq_of_NRel (by decide) (branchStage_nodes_nonVS index t hvs
        (offset_all_coordinates (update_xlink_refs e1 m) latO lonO))
      rw [h3] at heq
      rw [h3l] at heql
      exact ⟨heq, heql⟩

theorem cloneOffsets_fst (index grid_cols : Nat) (distance_nm : ℚ) (nav : List String)
    (rec : Triple) :
    (cloneOffsets index grid_cols distance_nm nav rec).1 =
      (if navaid_types.contains rec.2.1 ∧ ¬ rec.1 ∈ nav then
        (calculate_grid_offset index grid_cols (distance_nm / 10)).1
      else (calculate_grid_offset index grid_cols distance_nm).1) := by
  unfold cloneOffsets
  split <;> rfl

theorem cloneOffsets_snd (index grid_cols : Nat) (distance_nm : ℚ) (nav : List String)
    (rec : Triple) :
    (cloneOffsets index grid_cols distance_nm nav rec).2 =
      (if navaid_types.contains rec.2.1 ∧ ¬ rec.1 ∈ nav then
        (calculate_grid_offset index grid_cols (distance_nm / 10)).2
      else (calculate_grid_offset index grid_cols distance_nm).2) := by
  unfold cloneOffsets
  split <;> rfl

/-- C4: in a successful clone instance the records are pairwise related
to their originals by `offsetRel`: each is shifted by the reduced-offset
pair (`distanceUnit / 10`) exactly when its type is navaid or
navaid-equipment and its original identifier is not locally relevant,
and by the full offset otherwise. -/
theorem claim_C4 (collected : List Triple) (index grid_cols : Nat) (distance_nm : ℚ)
    (nav : List String) (gen : Nat → String) (p : List (String × Elem) × String)
    (h : clone_feature_set collected index grid_cols distance_nm nav gen = some p) :
    List.Forall₂ (offsetRel index grid_cols distance_nm nav) collected p.1 := by
  have hf := cloneRecords_forall₂ _ _ _ _ _ _ _ (clone_feature_set_inv h).1
  refine List.Forall₂.imp ?_ hf
  intro rec tc hrt
  obtain ⟨hty, hco⟩ := hrt
  have hx := cloneOne_offsets hco
  unfold offsetRel
  rw [cloneOffsets_fst, cloneOffsets_snd]
  exact ⟨hty, hx.1, hx.2.1, hx.2.2⟩

/-- Witness for C4 on a record with a pass-through (unparseable)
coordinate at grid index 0. -/
theorem claim_C4_witness : List.Forall₂ (offsetRel 0 6 30 []) cW4 pW4.1 :=
  claim_C4 cW4 0 6 30 [] genW pW4 rfl

end Donlon
